import Mathlib

/-!
Verification of the react-fatless-form form-state engine, submission pipeline,
feedback manager, select-box selection algebra and date/time picker algorithms.

The development shallowly embeds the TypeScript sources:
  * `src/hooks/useForm.ts`   — form state store (values / errors / touched /
    submissionStatus) and its operations,
  * `src/unnamed/part_004`   — the resolver-based `handleSubmit` submission
    pipeline (the pipeline the spec describes),
  * `src/utils/FeedbackManager.ts` — the toast/alert feedback manager,
  * `src/components/SelectBox/index.tsx` — multi-select toggle semantics,
  * `src/components/DateInput/CalendarIcon.tsx` — date formatting/parsing,
    range predicates and time-slot generation.

JavaScript objects used as sparse string-keyed maps (`errors`, `touched`) are
embedded as association lists; the JS `Date` value produced by
`new Date(y, m, d)` is embedded as a normalized year/month/day triple computed
with the same component-overflow semantics; `||` chains on possibly missing
strings are embedded with an explicit JS-truthiness disjunction.  Asynchrony
is embedded by passing the settled outcome of the user-supplied submit
callback as an explicit `Except` argument; effects (status writes, feedback
emissions, resets, callbacks) are recorded as an explicit event trace.
-/

namespace Fatless

/-- JS string truthiness: a string is falsy exactly when it is empty. -/
def strTruthy (s : String) : Bool := !(s == "")

/-- The JS `a || b` operator on possibly-absent strings (`none` embeds
`undefined`): returns `a` when present and truthy, otherwise `b`. -/
def jsOrStr (a b : Option String) : Option String :=
  match a with
  | some s => if strTruthy s then some s else b
  | none => b

/-- Submission status enum of `useForm.ts`
(`"idle" | "submitting" | "success" | "error"`). -/
inductive Status where
  | idle
  | submitting
  | success
  | error
deriving DecidableEq, Repr

/-- Form state of `useForm<T>` (`useForm.ts`): the `FormState` record
(`values`, `errors`, `touched`), the separate `submissionStatus` state, and
the `initialValues` argument closed over by `resetForm`.  The sparse maps
`errors` and `touched` are embedded as association lists. -/
structure Form (V : Type) where
  initialValues : V
  values : V
  errors : List (String × String)
  touched : List (String × Bool)
  submissionStatus : Status
deriving Repr

/-- The `validate` operation of `useForm.ts` (lines 205-212): computes
`validateFn state.values`, replaces the entire `errors` map with the result,
and returns `true` iff the result has no keys. -/
def Form.validate {V : Type} (f : Form V)
    (validateFn : V → List (String × String)) : Form V × Bool :=
  let errors := validateFn f.values
  ({ f with errors := errors }, errors.length == 0)

/-- The `resetForm` operation of `useForm.ts` (lines 214-220): restores
`values` to `initialValues` and clears `errors` and `touched`.  It does not
touch `submissionStatus`. -/
def Form.resetForm {V : Type} (f : Form V) : Form V :=
  { f with values := f.initialValues, errors := [], touched := [] }

/-- The `updateSubmissionStatus` operation of `useForm.ts` (lines 222-224):
a direct setter of `submissionStatus`. -/
def Form.updateSubmissionStatus {V : Type} (f : Form V) (s : Status) : Form V :=
  { f with submissionStatus := s }

/-- The `resetSubmissionStatus` operation of `useForm.ts` (lines 271-273):
sets `submissionStatus` back to `"idle"`. -/
def Form.resetSubmissionStatus {V : Type} (f : Form V) : Form V :=
  { f with submissionStatus := Status.idle }

/-- The `setFieldValue` operation of `useForm.ts` (lines 108-113), embedded
abstractly: it replaces `values` by a new values record and leaves errors,
touched and status alone.  The field-level merge `{ ...prev.values, [field]:
value }` is opaque at this level because `values : V` is abstract. -/
def Form.setFieldValue {V : Type} (f : Form V) (newValues : V) : Form V :=
  { f with values := newValues }

/-- The `setFieldError` operation of `useForm.ts` (lines 115-120): merges one
key into the `errors` object (`{ ...prev.errors, [field]: error }`).  On an
association list the JS spread-merge is "remove the old binding, add the new
one last". -/
def Form.setFieldError {V : Type} (f : Form V) (field msg : String) : Form V :=
  { f with errors := (f.errors.filter (fun p => !(p.1 == field))) ++ [(field, msg)] }

/-- The `setFieldTouched` operation of `useForm.ts` (lines 135-140). -/
def Form.setFieldTouched {V : Type} (f : Form V) (field : String) (t : Bool) : Form V :=
  { f with touched := (f.touched.filter (fun p => !(p.1 == field))) ++ [(field, t)] }

/-- The optional `feedbackConfig` argument of `handleSubmit`
(`src/unnamed/part_004`): `successMessage`, `errorMessage`, `showFeedback`,
all optional. -/
structure FeedbackConfig where
  successMessage : Option String
  errorMessage : Option String
  showFeedback : Option Bool
deriving DecidableEq, Repr

/-- Whether a present `feedbackConfig` object has no keys
(`Object.keys(feedbackConfig).length === 0`). -/
def FeedbackConfig.isEmpty (c : FeedbackConfig) : Bool :=
  c.successMessage == none && c.errorMessage == none && c.showFeedback == none

/-- A JS error value thrown/rejected by the submit callback, as far as
`handleSubmit` inspects it: an optional `message` field and an optional
nested `data.message` field. -/
structure JsError where
  message : Option String
  dataMessage : Option String
deriving DecidableEq, Repr

/-- Events emitted by one `handleSubmit` run, in program order:
console warnings, `updateSubmissionStatus` writes, the invocation of the
user-supplied async `onSubmit` callback, `feedbackManager.addFeedback`
calls (message, variant, and the fact that `onClose` is wired to
`resetSubmissionStatus`), `resetForm`, and the optional `onSuccess` call. -/
inductive Ev where
  | warn (msg : String)
  | setStatus (s : Status)
  | callOnSubmit
  | feedback (message : String) (variant : String) (onCloseIsReset : Bool)
  | callResetForm
  | callOnSuccess
deriving DecidableEq, Repr

/-- The empty-config rewrite of `handleSubmit` (lines 68-71 of
`src/unnamed/part_004`): a present-but-empty `feedbackConfig` is replaced by
`{ showFeedback: false }`. -/
def effectiveConfig (cfg : Option FeedbackConfig) : Option FeedbackConfig :=
  match cfg with
  | some c =>
      if c.isEmpty then
        some { successMessage := none, errorMessage := none, showFeedback := some false }
      else some c
  | none => none

/-- The feedback gate of `handleSubmit`
(`!feedbackConfig || feedbackConfig.showFeedback !== false`), applied to the
effective (post-rewrite) config. -/
def feedbackEnabled (cfg : Option FeedbackConfig) : Bool :=
  match cfg with
  | none => true
  | some c => !(c.showFeedback == some false)

/-- Success-message resolution of `handleSubmit` (lines 81-86): the
`message` field of the callback result object when present and truthy, else
`feedbackConfig?.successMessage`, else `"Done!"`.  `resultMessage` is the
`message` field of the result object (`none` when the result is not an
object bearing a message). -/
def resolveSuccessMessage (resultMessage : Option String)
    (cfg : Option FeedbackConfig) : Option String :=
  jsOrStr resultMessage (jsOrStr (cfg.bind (·.successMessage)) (some "Done!"))

/-- Error-message resolution of `handleSubmit` (lines 103-107):
`error?.message || error?.data?.message || feedbackConfig?.errorMessage ||
"An error occurred. Please try again."`. -/
def resolveErrorMessage (e : JsError) (cfg : Option FeedbackConfig) : Option String :=
  jsOrStr e.message (jsOrStr e.dataMessage
    (jsOrStr (cfg.bind (·.errorMessage)) (some "An error occurred. Please try again.")))

/-- Warning events emitted by the empty-`feedbackConfig` check of
`handleSubmit` (lines 68-71). -/
def emptyCfgWarnEvs (cfg : Option FeedbackConfig) : List Ev :=
  match cfg with
  | some c =>
      if c.isEmpty then
        [Ev.warn "Warning: `feedbackConfig` should not be an empty object. Defaulting to no feedback."]
      else []
  | none => []

/-- Feedback events emitted by the success branch of `handleSubmit`
(lines 80-94), for the effective (post-rewrite) config. -/
def successFbEvs (resultMessage : Option String)
    (cfg : Option FeedbackConfig) : List Ev :=
  if feedbackEnabled cfg then
    match resolveSuccessMessage resultMessage cfg with
    | some m => if strTruthy m then [Ev.feedback m "success" true] else []
    | none => []
  else []

/-- Feedback events emitted by the catch branch of `handleSubmit`
(lines 102-115), for the effective (post-rewrite) config. -/
def errorFbEvs (e : JsError) (cfg : Option FeedbackConfig) : List Ev :=
  if feedbackEnabled cfg then
    match resolveErrorMessage e cfg with
    | some m => if strTruthy m then [Ev.feedback m "error" true] else []
    | none => []
  else []

/-- The `handleSubmit` pipeline of `src/unnamed/part_004`, lines 49-117,
transcribed over the settled outcome of the async submit callback
(`outcome = Except.error e` embeds a rejected/thrown promise, `Except.ok m`
a resolution whose result object carries the optional `message` field `m`).
`hasOnSuccess` records whether the optional `onSuccess` callback was
supplied (`onSuccess?.(result)`).  Returns the final form state together
with the trace of emitted events. -/
def handleSubmit {V : Type} (form : Form V)
    (resolver : V → List (String × String))
    (outcome : Except JsError (Option String))
    (hasOnSuccess : Bool)
    (feedbackConfig : Option FeedbackConfig) : Form V × List Ev :=
  let values := form.values
  let validated := form.validate (fun _ => resolver values)
  if !validated.2 then
    (validated.1, [Ev.warn "Validation failed, skipping submission"])
  else
    let cfg := effectiveConfig feedbackConfig
    let f2 := validated.1.updateSubmissionStatus Status.submitting
    match outcome with
    | Except.ok resultMessage =>
        let f3 := f2.updateSubmissionStatus Status.success
        let f4 := f3.resetForm
        (f4,
          emptyCfgWarnEvs feedbackConfig ++
            [Ev.setStatus Status.submitting, Ev.callOnSubmit,
              Ev.setStatus Status.success] ++
            successFbEvs resultMessage cfg ++ [Ev.callResetForm] ++
            (if hasOnSuccess then [Ev.callOnSuccess] else []))
    | Except.error e =>
        let f3 := f2.updateSubmissionStatus Status.error
        (f3,
          emptyCfgWarnEvs feedbackConfig ++
            [Ev.setStatus Status.submitting, Ev.callOnSubmit,
              Ev.setStatus Status.error] ++ errorFbEvs e cfg)

/-- The status values written during a trace, in order. -/
def statusWrites (tr : List Ev) : List Status :=
  tr.filterMap (fun e => match e with | Ev.setStatus s => some s | _ => none)

end Fatless

namespace Fatless

/-- One caller-visible operation on a form: a full `handleSubmit` run, the
explicit `resetSubmissionStatus`, or one of the field-level store operations
of `useForm.ts` (`setFieldValue`, `setFieldError`, `setFieldTouched`,
`validate`, `resetForm`). -/
inductive Op (V : Type) where
  | submit (resolver : V → List (String × String))
      (outcome : Except JsError (Option String))
      (hasOnSuccess : Bool) (cfg : Option FeedbackConfig)
  | reset
  | setValue (v : V)
  | setError (field msg : String)
  | setTouched (field : String) (t : Bool)
  | runValidate (fn : V → List (String × String))
  | runResetForm

/-- Apply one operation, returning the new form and the trace of emitted
events (`resetSubmissionStatus` is itself recorded as a status write). -/
def applyOp {V : Type} (f : Form V) : Op V → Form V × List Ev
  | Op.submit resolver outcome hasOnSuccess cfg =>
      handleSubmit f resolver outcome hasOnSuccess cfg
  | Op.reset => (f.resetSubmissionStatus, [Ev.setStatus Status.idle])
  | Op.setValue v => (f.setFieldValue v, [])
  | Op.setError field msg => (f.setFieldError field msg, [])
  | Op.setTouched field t => (f.setFieldTouched field t, [])
  | Op.runValidate fn => ((f.validate fn).1, [])
  | Op.runResetForm => (f.resetForm, [])

/-- The status after a trace: the last status written, or the initial status
when the trace writes none. -/
def lastStatus (init : Status) (tr : List Ev) : Status :=
  (statusWrites tr).getLastD init

theorem statusWrites_append (a b : List Ev) :
    statusWrites (a ++ b) = statusWrites a ++ statusWrites b := by
  simp [statusWrites, List.filterMap_append]

theorem statusWrites_warn (m : String) : statusWrites [Ev.warn m] = [] := rfl

theorem statusWrites_feedback (m v : String) (b : Bool) :
    statusWrites [Ev.feedback m v b] = [] := rfl

end Fatless

namespace Fatless

theorem statusWrites_emptyCfgWarnEvs (cfg : Option FeedbackConfig) :
    statusWrites (emptyCfgWarnEvs cfg) = [] := by
  cases cfg with
  | none => rfl
  | some c =>
      simp only [emptyCfgWarnEvs]
      split <;> rfl

theorem statusWrites_successFbEvs (rm : Option String) (cfg : Option FeedbackConfig) :
    statusWrites (successFbEvs rm cfg) = [] := by
  simp only [successFbEvs]
  split
  · split
    · split <;> rfl
    · rfl
  · rfl

theorem statusWrites_errorFbEvs (e : JsError) (cfg : Option FeedbackConfig) :
    statusWrites (errorFbEvs e cfg) = [] := by
  simp only [errorFbEvs]
  split
  · split
    · split <;> rfl
    · rfl
  · rfl

/-- A concrete form over a unit values record, used to exercise the pipeline
at concrete inputs. -/
def form0 : Form Unit :=
  { initialValues := (), values := (), errors := [], touched := [],
    submissionStatus := Status.idle }

/-- A feedback config with `showFeedback: false` (caller opts out of
feedback, hence no `onClose` reset is ever scheduled). -/
def cfgNoFeedback : Option FeedbackConfig :=
  some { successMessage := none, errorMessage := none, showFeedback := some false }

end Fatless

namespace Fatless

/-- C1 counterexample: the claimed transition law fails on the code.  With
feedback disabled (`showFeedback: false`), a successful submission from the
initial idle form leaves `submissionStatus = success` and schedules no
reset; invoking `handleSubmit` again — a reachable sequence of pipeline
operations with no intervening reset — immediately writes `submitting`, so
the status moves `success -> submitting`, a transition the claim forbids
(`success` may only move to `idle`, and only via explicit reset). -/
theorem C1_counterexample :
    ((handleSubmit form0 (fun _ => []) (Except.ok none) false cfgNoFeedback).1.submissionStatus
        = Status.success)
  ∧ ((statusWrites (handleSubmit
        (handleSubmit form0 (fun _ => []) (Except.ok none) false cfgNoFeedback).1
        (fun _ => []) (Except.ok none) false cfgNoFeedback).2).head?
        = some Status.submitting) := by
  constructor
  · rfl
  · rfl

end Fatless


namespace Fatless

theorem statusWrites_nil : statusWrites [] = [] := rfl

theorem statusWrites_cons_setStatus (s : Status) (tr : List Ev) :
    statusWrites (Ev.setStatus s :: tr) = s :: statusWrites tr := rfl

theorem statusWrites_cons_warn (m : String) (tr : List Ev) :
    statusWrites (Ev.warn m :: tr) = statusWrites tr := rfl

theorem statusWrites_cons_callOnSubmit (tr : List Ev) :
    statusWrites (Ev.callOnSubmit :: tr) = statusWrites tr := rfl

theorem statusWrites_cons_feedback (m v : String) (b : Bool) (tr : List Ev) :
    statusWrites (Ev.feedback m v b :: tr) = statusWrites tr := rfl

theorem statusWrites_cons_callResetForm (tr : List Ev) :
    statusWrites (Ev.callResetForm :: tr) = statusWrites tr := rfl

theorem statusWrites_cons_callOnSuccess (tr : List Ev) :
    statusWrites (Ev.callOnSuccess :: tr) = statusWrites tr := rfl

/-- C1 (amended): along every single form or pipeline operation,
`submissionStatus` is exactly the last status written (it never
auto-reverts); the status writes of an operation are either none (field
operations, `validate`, `resetForm`, and a submit whose validation fails —
all of which leave the status unchanged), exactly `[idle]` and only for the
explicit reset, or exactly `[submitting, success]` / `[submitting, error]`
for a validated submit.  In particular `idle -> submitting ->
(success|error)` and `-> idle` by explicit reset are the only status
movements, except that `handleSubmit` does not gate on the current status,
so a validated submit re-entered from `success` or `error` (form not yet
reset) moves directly back to `submitting` rather than only to `idle`. -/
theorem C1_amended {V : Type} (f : Form V) (op : Op V) :
    (applyOp f op).1.submissionStatus = lastStatus f.submissionStatus (applyOp f op).2
  ∧ (statusWrites (applyOp f op).2 = []
      ∨ (op = Op.reset ∧ statusWrites (applyOp f op).2 = [Status.idle])
      ∨ statusWrites (applyOp f op).2 = [Status.submitting, Status.success]
      ∨ statusWrites (applyOp f op).2 = [Status.submitting, Status.error])
  ∧ (statusWrites (applyOp f op).2 = [] →
      (applyOp f op).1.submissionStatus = f.submissionStatus) := by
  cases op with
  | submit resolver outcome hasOnSuccess cfg =>
      simp only [applyOp, handleSubmit, Form.validate]
      split
      · exact ⟨rfl, Or.inl rfl, fun _ => rfl⟩
      · cases outcome with
        | ok rm =>
            have hw : statusWrites (emptyCfgWarnEvs cfg ++
                [Ev.setStatus Status.submitting, Ev.callOnSubmit,
                  Ev.setStatus Status.success] ++
                successFbEvs rm (effectiveConfig cfg) ++ [Ev.callResetForm] ++
                (if hasOnSuccess = true then [Ev.callOnSuccess] else []))
                = [Status.submitting, Status.success] := by
              cases hasOnSuccess with
              | false =>
                  simp only [statusWrites_append, statusWrites_emptyCfgWarnEvs,
                    statusWrites_successFbEvs, statusWrites_cons_setStatus,
                    statusWrites_cons_callOnSubmit, statusWrites_cons_callResetForm,
                    statusWrites_nil, List.nil_append, List.append_nil]
                  rfl
              | true =>
                  simp only [statusWrites_append, statusWrites_emptyCfgWarnEvs,
                    statusWrites_successFbEvs, statusWrites_cons_setStatus,
                    statusWrites_cons_callOnSubmit, statusWrites_cons_callResetForm,
                    statusWrites_cons_callOnSuccess, statusWrites_nil,
                    List.nil_append, List.append_nil]
                  rfl
            refine ⟨?_, Or.inr (Or.inr (Or.inl hw)), fun h => ?_⟩
            · show Status.success = _
              rw [lastStatus, hw]
              rfl
            · rw [hw] at h
              exact absurd h (by decide)
        | error e =>
            have hw : statusWrites (emptyCfgWarnEvs cfg ++
                [Ev.setStatus Status.submitting, Ev.callOnSubmit,
                  Ev.setStatus Status.error] ++ errorFbEvs e (effectiveConfig cfg))
                = [Status.submitting, Status.error] := by
              simp only [statusWrites_append, statusWrites_emptyCfgWarnEvs,
                statusWrites_errorFbEvs, statusWrites_cons_setStatus,
                statusWrites_cons_callOnSubmit, statusWrites_nil,
                List.nil_append, List.append_nil]
            refine ⟨?_, Or.inr (Or.inr (Or.inr hw)), fun h => ?_⟩
            · show Status.error = _
              rw [lastStatus, hw]
              rfl
            · rw [hw] at h
              exact absurd h (by decide)
  | reset =>
      refine ⟨rfl, Or.inr (Or.inl ⟨rfl, rfl⟩), fun h => ?_⟩
      exact absurd h (List.cons_ne_nil _ _)
  | setValue v => exact ⟨rfl, Or.inl rfl, fun _ => rfl⟩
  | setError field msg => exact ⟨rfl, Or.inl rfl, fun _ => rfl⟩
  | setTouched field t => exact ⟨rfl, Or.inl rfl, fun _ => rfl⟩
  | runValidate fn => exact ⟨rfl, Or.inl rfl, fun _ => rfl⟩
  | runResetForm => exact ⟨rfl, Or.inl rfl, fun _ => rfl⟩

end Fatless

namespace Fatless

/-- C2: `validate(fn)` replaces the entire `errors` map with exactly the map
returned by `fn` applied to the current values; every field without a key in
that result carries no error afterwards (previously stored errors are
dropped, not merged); and `validate` returns `true` iff the returned map has
no keys. -/
theorem C2_validate_overwrite {V : Type} (f : Form V)
    (fn : V → List (String × String)) :
    ((f.validate fn).1.errors = fn f.values)
  ∧ (∀ field, (fn f.values).lookup field = none →
      ((f.validate fn).1.errors).lookup field = none)
  ∧ ((f.validate fn).2 = true ↔ fn f.values = []) := by
  refine ⟨rfl, fun field h => h, ?_⟩
  show ((fn f.values).length == 0) = true ↔ fn f.values = []
  simp [List.length_eq_zero]

/-- The precedence chain of the claim texts: the first present-and-truthy
string in the list, else the default. -/
def firstTruthy : List (Option String) → String → String
  | [], d => d
  | a :: rest, d =>
      match a with
      | some s => if strTruthy s then s else firstTruthy rest d
      | none => firstTruthy rest d

theorem firstTruthy_truthy (l : List (Option String)) (d : String)
    (hd : strTruthy d = true) : strTruthy (firstTruthy l d) = true := by
  induction l with
  | nil => exact hd
  | cons a rest ih =>
      cases a with
      | none => exact ih
      | some s =>
          show strTruthy (if strTruthy s then s else firstTruthy rest d) = true
          split
          · assumption
          · exact ih

theorem resolveErrorMessage_eq_firstTruthy (e : JsError) (cfg : Option FeedbackConfig) :
    resolveErrorMessage e cfg =
      some (firstTruthy [e.message, e.dataMessage, cfg.bind (·.errorMessage)]
        "An error occurred. Please try again.") := by
  cases hm : e.message <;> cases hd : e.dataMessage <;>
    cases hc : cfg.bind (·.errorMessage) <;>
      simp [resolveErrorMessage, jsOrStr, firstTruthy, hm, hd, hc] <;>
        split_ifs <;> simp_all [firstTruthy]

theorem resolveSuccessMessage_eq_firstTruthy (rm : Option String)
    (cfg : Option FeedbackConfig) :
    resolveSuccessMessage rm cfg =
      some (firstTruthy [rm, cfg.bind (·.successMessage)] "Done!") := by
  cases hm : rm <;> cases hc : cfg.bind (·.successMessage) <;>
    simp [resolveSuccessMessage, jsOrStr, firstTruthy, hm, hc] <;>
      split_ifs <;> simp_all [firstTruthy]

theorem effectiveConfig_eq_of_enabled (cfg : Option FeedbackConfig)
    (h : feedbackEnabled (effectiveConfig cfg) = true) : effectiveConfig cfg = cfg := by
  cases cfg with
  | none => rfl
  | some c =>
      by_cases hc : c.isEmpty
      · simp [effectiveConfig, hc, feedbackEnabled] at h
      · simp [effectiveConfig, hc]

theorem emptyCfgWarnEvs_eq_nil_of_enabled (cfg : Option FeedbackConfig)
    (h : feedbackEnabled (effectiveConfig cfg) = true) : emptyCfgWarnEvs cfg = [] := by
  cases cfg with
  | none => rfl
  | some c =>
      by_cases hc : c.isEmpty
      · simp [effectiveConfig, hc, feedbackEnabled] at h
      · simp [emptyCfgWarnEvs, hc]

end Fatless

namespace Fatless

/-- C3: when validation passes and the submit callback rejects/throws,
`handleSubmit` sets `submissionStatus` to `error`, leaves the form values
untouched (`resetForm` is never called on the failure path), and — when
feedback is enabled — emits exactly one feedback with the first available
truthy message among the thrown error's `message`, its nested
`data.message`, the caller-supplied `errorMessage` override, and the
default `"An error occurred. Please try again."`.  The embedding of
`handleSubmit` is a total function returning the final state, which is the
shallow form of "the error is caught and never re-thrown to the caller". -/
theorem C3_submit_rejection {V : Type} (f : Form V)
    (resolver : V → List (String × String)) (e : JsError)
    (hasOnSuccess : Bool) (cfg : Option FeedbackConfig)
    (hval : resolver f.values = []) :
    ((handleSubmit f resolver (Except.error e) hasOnSuccess cfg).1.submissionStatus
      = Status.error)
  ∧ ((handleSubmit f resolver (Except.error e) hasOnSuccess cfg).1.values = f.values)
  ∧ (Ev.callResetForm ∉ (handleSubmit f resolver (Except.error e) hasOnSuccess cfg).2)
  ∧ (feedbackEnabled (effectiveConfig cfg) = true →
      (handleSubmit f resolver (Except.error e) hasOnSuccess cfg).2 =
        [Ev.setStatus Status.submitting, Ev.callOnSubmit, Ev.setStatus Status.error,
          Ev.feedback
            (firstTruthy [e.message, e.dataMessage, cfg.bind (·.errorMessage)]
              "An error occurred. Please try again.") "error" true])
  ∧ (feedbackEnabled (effectiveConfig cfg) = false →
      ∀ m v b, Ev.feedback m v b ∉
        (handleSubmit f resolver (Except.error e) hasOnSuccess cfg).2) := by
  have hok : ((resolver f.values).length == 0) = true := by rw [hval]; rfl
  simp only [handleSubmit, Form.validate, hok, Bool.not_true, Bool.false_eq_true,
    if_false]
  refine ⟨rfl, rfl, ?_, ?_, ?_⟩
  · intro hmem
    rcases List.mem_append.mp hmem with hmem | hmem
    · rcases List.mem_append.mp hmem with hmem | hmem
      · cases cfg with
        | none => simp [emptyCfgWarnEvs] at hmem
        | some c =>
            simp only [emptyCfgWarnEvs] at hmem
            split at hmem <;> simp at hmem
      · simp at hmem
    · simp only [errorFbEvs] at hmem
      split at hmem
      · split at hmem
        · split at hmem <;> simp at hmem
        · simp at hmem
      · simp at hmem
  · intro hfb
    have hcfg := effectiveConfig_eq_of_enabled cfg hfb
    have hfb2 : feedbackEnabled cfg = true := by rw [← hcfg]; exact hfb
    have htr : strTruthy (firstTruthy [e.message, e.dataMessage,
        cfg.bind (·.errorMessage)] "An error occurred. Please try again.") = true :=
      firstTruthy_truthy _ _ (by decide)
    rw [emptyCfgWarnEvs_eq_nil_of_enabled cfg hfb, errorFbEvs, hcfg, if_pos hfb2,
      resolveErrorMessage_eq_firstTruthy]
    simp [htr]
  · intro hfb m v b hmem
    rcases List.mem_append.mp hmem with hmem | hmem
    · rcases List.mem_append.mp hmem with hmem | hmem
      · cases cfg with
        | none => simp [emptyCfgWarnEvs] at hmem
        | some c =>
            simp only [emptyCfgWarnEvs] at hmem
            split at hmem <;> simp at hmem
      · simp at hmem
    · rw [errorFbEvs, if_neg (by simp [hfb])] at hmem
      simp at hmem

end Fatless

namespace Fatless

/-- C3 witness: callback throws an object with message `"Server down"` and no
config: status becomes `error` and the feedback sink receives exactly
`"Server down"`, with values untouched and no reset. -/
theorem C3_submit_rejection_witness :
    (handleSubmit form0 (fun _ => [])
        (Except.error { message := some "Server down", dataMessage := none })
        false none).2
      = [Ev.setStatus Status.submitting, Ev.callOnSubmit, Ev.setStatus Status.error,
          Ev.feedback "Server down" "error" true] := by
  have h := (C3_submit_rejection form0 (fun _ => [])
      { message := some "Server down", dataMessage := none } false none rfl).2.2.2.1 rfl
  simpa using h

/-- C4: when validation passes, the callback resolves and feedback is
enabled, `handleSubmit` performs, in this order: status write `submitting`,
callback invocation, status write `success`, one feedback carrying the
first available truthy message among the result object's `message`, the
caller-supplied success override, and `"Done!"`, then `resetForm`, then the
optional `onSuccess` callback.  The final state carries status `success`
and the reset values/errors/touched. -/
theorem C4_submit_success {V : Type} (f : Form V)
    (resolver : V → List (String × String)) (rm : Option String)
    (hasOnSuccess : Bool) (cfg : Option FeedbackConfig)
    (hval : resolver f.values = [])
    (hfb : feedbackEnabled (effectiveConfig cfg) = true) :
    ((handleSubmit f resolver (Except.ok rm) hasOnSuccess cfg).1.submissionStatus
      = Status.success)
  ∧ ((handleSubmit f resolver (Except.ok rm) hasOnSuccess cfg).1.values
      = f.initialValues)
  ∧ ((handleSubmit f resolver (Except.ok rm) hasOnSuccess cfg).1.errors = [])
  ∧ ((handleSubmit f resolver (Except.ok rm) hasOnSuccess cfg).1.touched = [])
  ∧ ((handleSubmit f resolver (Except.ok rm) hasOnSuccess cfg).2 =
      [Ev.setStatus Status.submitting, Ev.callOnSubmit, Ev.setStatus Status.success,
        Ev.feedback (firstTruthy [rm, cfg.bind (·.successMessage)] "Done!")
          "success" true,
        Ev.callResetForm] ++
        (if hasOnSuccess then [Ev.callOnSuccess] else [])) := by
  have hok : ((resolver f.values).length == 0) = true := by rw [hval]; rfl
  have hcfg := effectiveConfig_eq_of_enabled cfg hfb
  have hfb2 : feedbackEnabled cfg = true := by rw [← hcfg]; exact hfb
  have htr : strTruthy (firstTruthy [rm, cfg.bind (·.successMessage)] "Done!") = true :=
    firstTruthy_truthy _ _ (by decide)
  simp only [handleSubmit, Form.validate, hok, Bool.not_true, Bool.false_eq_true,
    if_false]
  refine ⟨rfl, rfl, rfl, rfl, ?_⟩
  rw [emptyCfgWarnEvs_eq_nil_of_enabled cfg hfb, successFbEvs, hcfg, if_pos hfb2,
    resolveSuccessMessage_eq_firstTruthy]
  simp [htr]

/-- C4 witness: the spec scenario — resolver returns no errors, callback
resolves without a message, no config: the observed pipeline is
`submitting`, callback, `success`, feedback `"Done!"`, `resetForm`. -/
theorem C4_submit_success_witness :
    (handleSubmit form0 (fun _ => []) (Except.ok none) false none).2
      = [Ev.setStatus Status.submitting, Ev.callOnSubmit, Ev.setStatus Status.success,
          Ev.feedback "Done!" "success" true, Ev.callResetForm] := by
  have h := (C4_submit_success form0 (fun _ => []) none false none rfl rfl).2.2.2.2
  simpa using h

/-- C5: when the resolver returns a non-empty error map, `handleSubmit`
aborts before any status change: the status keeps its current value, the
callback is never invoked, no feedback and no reset occur (the only trace
event is the console warning), and the only state change is that the
resolver's error map overwrites the form's `errors`. -/
theorem C5_validation_failure {V : Type} (f : Form V)
    (resolver : V → List (String × String))
    (outcome : Except JsError (Option String))
    (hasOnSuccess : Bool) (cfg : Option FeedbackConfig)
    (hval : resolver f.values ≠ []) :
    ((handleSubmit f resolver outcome hasOnSuccess cfg).1.submissionStatus
      = f.submissionStatus)
  ∧ ((handleSubmit f resolver outcome hasOnSuccess cfg).1.values = f.values)
  ∧ ((handleSubmit f resolver outcome hasOnSuccess cfg).1.touched = f.touched)
  ∧ ((handleSubmit f resolver outcome hasOnSuccess cfg).1.errors = resolver f.values)
  ∧ ((handleSubmit f resolver outcome hasOnSuccess cfg).2
      = [Ev.warn "Validation failed, skipping submission"])
  ∧ (Ev.callOnSubmit ∉ (handleSubmit f resolver outcome hasOnSuccess cfg).2) := by
  have hok : ((resolver f.values).length == 0) = false := by
    simpa using hval
  simp only [handleSubmit, Form.validate, hok, Bool.not_false, if_true]
  simp

/-- C5 witness: the spec scenario — the resolver reports
`age: "Must be at least 18"`; the pipeline stays at its current status, the
callback is never invoked, and the error map holds exactly that entry. -/
theorem C5_validation_failure_witness :
    ((handleSubmit form0 (fun _ => [("age", "Must be at least 18")])
        (Except.ok none) false none).1.submissionStatus = Status.idle)
  ∧ ((handleSubmit form0 (fun _ => [("age", "Must be at least 18")])
        (Except.ok none) false none).1.errors.lookup "age"
      = some "Must be at least 18") := by
  have h := C5_validation_failure form0 (fun _ => [("age", "Must be at least 18")])
    (Except.ok none) false none (by decide)
  exact ⟨h.1, by rw [h.2.2.2.1]; rfl⟩

end Fatless

namespace Fatless

/-- The JS `a || b` with a string default, as used for the `type`/`variant`
defaults of `addFeedback` (an empty string is falsy and falls through). -/
def jsOrStrD (a : Option String) (d : String) : String :=
  (jsOrStr a (some d)).getD d

/-- A feedback record of `FeedbackManager.ts` (the `Feedback` interface).
The `onClose` callback is kept abstract as a value of type `A`. -/
structure FeedbackItem (A : Type) where
  id : Nat
  message : String
  type : String
  variant : String
  autoDismiss : Bool
  duration : Nat
  onClose : Option A
  isFadingOut : Bool

/-- The `FeedbackOptions` argument of `addFeedback` (all fields optional). -/
structure FeedbackOptions (A : Type) where
  type : Option String
  variant : Option String
  autoDismiss : Option Bool
  duration : Option Nat
  onClose : Option A

/-- The `addFeedback` method (`FeedbackManager.ts` lines 27-47): appends a
new feedback with defaults `type || "toast"`, `variant || "info"`,
`autoDismiss ?? true`, `duration || 5000`, `isFadingOut: false`; when
`autoDismiss` holds it schedules `startFadeOut(id)` after `duration`
milliseconds on the ambient timer (the external clock collaborator) —
recorded here as the returned boolean.  `id` is `Date.now()`, an input of
the embedding. -/
def addFeedback {A : Type} (feedbacks : List (FeedbackItem A)) (id : Nat)
    (message : String) (options : FeedbackOptions A) :
    List (FeedbackItem A) × Bool :=
  let feedback : FeedbackItem A :=
    { id := id
      message := message
      type := jsOrStrD options.type "toast"
      variant := jsOrStrD options.variant "info"
      autoDismiss := options.autoDismiss.getD true
      duration := match options.duration with
        | some n => if n == 0 then 5000 else n
        | none => 5000
      onClose := options.onClose
      isFadingOut := false }
  (feedbacks ++ [feedback], feedback.autoDismiss)

/-- The `startFadeOut` method (lines 49-57): marks the matching feedback as
fading out; 300ms later the ambient timer fires `removeFeedback(id)`. -/
def startFadeOut {A : Type} (feedbacks : List (FeedbackItem A)) (id : Nat) :
    List (FeedbackItem A) :=
  feedbacks.map (fun f => if f.id == id then { f with isFadingOut := true } else f)

/-- The `removeFeedback` method (lines 59-66): fires the `onClose` callback
of the first matching feedback (when present) and drops the feedback from
the list.  The fired callbacks are returned. -/
def removeFeedback {A : Type} (feedbacks : List (FeedbackItem A)) (id : Nat) :
    List (FeedbackItem A) × List A :=
  let fired := match (feedbacks.find? (fun f => f.id == id)).bind (·.onClose) with
    | some a => [a]
    | none => []
  (feedbacks.filter (fun f => !(f.id == id)), fired)

/-- The auto-dismiss path driven by the ambient timers: after `duration`
milliseconds `startFadeOut`, after 300 more `removeFeedback`. -/
def autoDismissRun {A : Type} (feedbacks : List (FeedbackItem A)) (id : Nat) :
    List (FeedbackItem A) × List A :=
  removeFeedback (startFadeOut feedbacks id) id

/-- The options `handleSubmit` passes to `feedbackManager.addFeedback`:
only `variant` and `onClose` (wired to `resetSubmissionStatus`). -/
def pipelineFeedbackOptions {V : Type} (v : String) :
    FeedbackOptions (Form V → Form V) :=
  { type := none, variant := some v, autoDismiss := none, duration := none,
    onClose := some Form.resetSubmissionStatus }

end Fatless

namespace Fatless

theorem mem_successFbEvs_reset {rm : Option String} {cfg : Option FeedbackConfig}
    {msg var : String} {b : Bool}
    (h : Ev.feedback msg var b ∈ successFbEvs rm cfg) : b = true := by
  by_cases he : feedbackEnabled cfg = true
  · rw [successFbEvs, if_pos he] at h
    cases hr : resolveSuccessMessage rm cfg with
    | none => rw [hr] at h; simp at h
    | some m =>
        rw [hr] at h
        by_cases ht : strTruthy m = true
        · simp [ht] at h
          exact h.2.2
        · simp [ht] at h
  · rw [successFbEvs, if_neg he] at h
    simp at h

theorem mem_errorFbEvs_reset {e : JsError} {cfg : Option FeedbackConfig}
    {msg var : String} {b : Bool}
    (h : Ev.feedback msg var b ∈ errorFbEvs e cfg) : b = true := by
  by_cases he : feedbackEnabled cfg = true
  · rw [errorFbEvs, if_pos he] at h
    cases hr : resolveErrorMessage e cfg with
    | none => rw [hr] at h; simp at h
    | some m =>
        rw [hr] at h
        by_cases ht : strTruthy m = true
        · simp [ht] at h
          exact h.2.2
        · simp [ht] at h
  · rw [errorFbEvs, if_neg he] at h
    simp at h

/-- C10: after a completed submission with feedback enabled the status
returns to idle with no explicit caller reset: (1) the pipeline emits a
feedback whose `onClose` is `resetSubmissionStatus` (and every emitted
feedback is so wired); (2) `addFeedback`, called with only `variant` and
`onClose` as the pipeline does, defaults `autoDismiss` to `true` and
`duration` to `5000` ms and schedules the fade-out; (3) the timer-driven
dismissal (`startFadeOut` then `removeFeedback`) fires exactly that
`onClose`; (4) applying the fired callbacks to the post-submit form leaves
`submissionStatus = idle`. -/
theorem C10_feedback_close_resets {V : Type} (f : Form V)
    (resolver : V → List (String × String))
    (outcome : Except JsError (Option String)) (hasOnSuccess : Bool)
    (cfg : Option FeedbackConfig) (id : Nat) (m v : String)
    (hval : resolver f.values = [])
    (hfb : feedbackEnabled (effectiveConfig cfg) = true) :
    (∃ msg var, Ev.feedback msg var true
      ∈ (handleSubmit f resolver outcome hasOnSuccess cfg).2)
  ∧ (∀ msg var b, Ev.feedback msg var b
      ∈ (handleSubmit f resolver outcome hasOnSuccess cfg).2 → b = true)
  ∧ ((addFeedback ([] : List (FeedbackItem (Form V → Form V))) id m
      (pipelineFeedbackOptions v)).2 = true)
  ∧ (∀ item ∈ (addFeedback ([] : List (FeedbackItem (Form V → Form V))) id m
      (pipelineFeedbackOptions v)).1,
      item.autoDismiss = true ∧ item.duration = 5000
        ∧ item.onClose = some Form.resetSubmissionStatus)
  ∧ ((autoDismissRun (addFeedback ([] : List (FeedbackItem (Form V → Form V))) id m
      (pipelineFeedbackOptions v)).1 id).2 = [Form.resetSubmissionStatus])
  ∧ (((autoDismissRun (addFeedback ([] : List (FeedbackItem (Form V → Form V))) id m
        (pipelineFeedbackOptions v)).1 id).2.foldl (fun g a => a g)
        (handleSubmit f resolver outcome hasOnSuccess cfg).1).submissionStatus
      = Status.idle) := by
  have hok : ((resolver f.values).length == 0) = true := by rw [hval]; rfl
  have hcfg := effectiveConfig_eq_of_enabled cfg hfb
  have hfb2 : feedbackEnabled cfg = true := by rw [← hcfg]; exact hfb
  have hfired : (autoDismissRun (addFeedback
      ([] : List (FeedbackItem (Form V → Form V))) id m
      (pipelineFeedbackOptions v)).1 id).2 = [Form.resetSubmissionStatus] := by
    simp [autoDismissRun, addFeedback, startFadeOut, removeFeedback,
      pipelineFeedbackOptions, jsOrStrD, jsOrStr]
  refine ⟨?_, ?_, rfl, ?_, hfired, ?_⟩
  · cases outcome with
    | ok rm =>
        have htr : strTruthy (firstTruthy [rm, cfg.bind (·.successMessage)]
            "Done!") = true := firstTruthy_truthy _ _ (by decide)
        refine ⟨firstTruthy [rm, cfg.bind (·.successMessage)] "Done!", "success", ?_⟩
        simp only [handleSubmit, Form.validate, hok, Bool.not_true,
          Bool.false_eq_true, if_false]
        rw [successFbEvs, hcfg, if_pos hfb2, resolveSuccessMessage_eq_firstTruthy]
        simp [htr]
    | error e =>
        have htr : strTruthy (firstTruthy [e.message, e.dataMessage,
            cfg.bind (·.errorMessage)] "An error occurred. Please try again.")
            = true := firstTruthy_truthy _ _ (by decide)
        refine ⟨firstTruthy [e.message, e.dataMessage, cfg.bind (·.errorMessage)]
          "An error occurred. Please try again.", "error", ?_⟩
        simp only [handleSubmit, Form.validate, hok, Bool.not_true,
          Bool.false_eq_true, if_false]
        rw [errorFbEvs, hcfg, if_pos hfb2, resolveErrorMessage_eq_firstTruthy]
        simp [htr]
  · intro msg var b hmem
    simp only [handleSubmit, Form.validate, hok, Bool.not_true,
      Bool.false_eq_true, if_false] at hmem
    cases outcome with
    | ok rm =>
        rw [emptyCfgWarnEvs_eq_nil_of_enabled cfg hfb] at hmem
        rcases List.mem_append.mp hmem with h1 | h1
        · rcases List.mem_append.mp h1 with h2 | h2
          · rcases List.mem_append.mp h2 with h3 | h3
            · simp at h3
            · exact mem_successFbEvs_reset h3
          · simp at h2
        · split at h1 <;> simp at h1
    | error e =>
        rw [emptyCfgWarnEvs_eq_nil_of_enabled cfg hfb] at hmem
        rcases List.mem_append.mp hmem with h1 | h1
        · simp at h1
        · exact mem_errorFbEvs_reset h1
  · intro item hmem
    simp only [addFeedback, pipelineFeedbackOptions, List.nil_append,
      List.mem_singleton] at hmem
    subst hmem
    exact ⟨rfl, rfl, rfl⟩
  · rw [hfired]
    rfl

end Fatless

namespace Fatless

/-- C10 witness: concrete run — submit succeeds with no config, the added
feedback auto-dismisses, its `onClose` fires, and the form is back at
`idle` without any caller reset. -/
theorem C10_feedback_close_resets_witness :
    ((autoDismissRun (addFeedback ([] : List (FeedbackItem (Form Unit → Form Unit)))
        1 "Done!" (pipelineFeedbackOptions "success")).1 1).2
      = [Form.resetSubmissionStatus])
  ∧ (((autoDismissRun (addFeedback ([] : List (FeedbackItem (Form Unit → Form Unit)))
        1 "Done!" (pipelineFeedbackOptions "success")).1 1).2.foldl (fun g a => a g)
        (handleSubmit form0 (fun _ => []) (Except.ok none) false none).1).submissionStatus
      = Status.idle) := by
  have h := C10_feedback_close_resets form0 (fun _ => []) (Except.ok none) false none
    1 "Done!" "success" rfl rfl
  exact ⟨h.2.2.2.2.1, h.2.2.2.2.2⟩

end Fatless

namespace Fatless

/-- The multi-select branch of `handleOptionClick`
(`src/components/SelectBox/index.tsx`, lines 313-324 and identically lines
111-122): `updated.includes(val) ? updated.filter(v => v !== val) :
[...updated, val]`.  `value` is the current selection array (a non-array
`value` is treated as `[]` by the `Array.isArray` guard, so the list is the
general case). -/
def handleOptionClickMulti {α : Type} [DecidableEq α] (value : List α) (val : α) :
    List α :=
  if value.contains val then value.filter (fun v => !(v == val))
  else value ++ [val]

/-- C9: toggling a value in multi-select removes it when present — the
remaining selected values keep their relative order (the result is exactly
the filter of the original list) — and appends it at the end when absent;
hence toggling the same value twice restores the selection's contents, with
the values other than the toggled one in unchanged order (and when the
value was absent, restores the selection exactly). -/
theorem C9_toggle_selection {α : Type} [DecidableEq α] (sel : List α) (v : α) :
    (v ∈ sel → handleOptionClickMulti sel v = sel.filter (fun x => !(x == v)))
  ∧ (v ∉ sel → handleOptionClickMulti sel v = sel ++ [v])
  ∧ (∀ x, x ∈ handleOptionClickMulti (handleOptionClickMulti sel v) v ↔ x ∈ sel)
  ∧ ((handleOptionClickMulti (handleOptionClickMulti sel v) v).filter
      (fun x => !(x == v)) = sel.filter (fun x => !(x == v)))
  ∧ (v ∉ sel → handleOptionClickMulti (handleOptionClickMulti sel v) v = sel) := by
  by_cases hv : v ∈ sel
  · have h1 : handleOptionClickMulti sel v = sel.filter (fun x => !(x == v)) := by
      rw [handleOptionClickMulti, if_pos (by simpa using hv)]
    have hnot : v ∉ sel.filter (fun x => !(x == v)) := by simp
    have h2 : handleOptionClickMulti (sel.filter (fun x => !(x == v))) v
        = sel.filter (fun x => !(x == v)) ++ [v] := by
      rw [handleOptionClickMulti, if_neg (by simp)]
    refine ⟨fun _ => h1, fun h => absurd hv h, ?_, ?_, fun h => absurd hv h⟩
    · intro x
      rw [h1, h2]
      by_cases hx : x = v
      · subst hx
        simp [hv]
      · simp [hx]
    · rw [h1, h2, List.filter_append, List.filter_filter]
      simp
  · have h1 : handleOptionClickMulti sel v = sel ++ [v] := by
      rw [handleOptionClickMulti, if_neg (by simpa using hv)]
    have h2 : handleOptionClickMulti (sel ++ [v]) v = sel := by
      rw [handleOptionClickMulti, if_pos (by simp), List.filter_append]
      have hv2 : List.filter (fun x => !(x == v)) [v] = [] := by simp
      rw [hv2, List.append_nil, List.filter_eq_self]
      intro a ha
      simp
      exact fun he => hv (he ▸ ha)
    refine ⟨fun h => absurd h hv, fun _ => h1, ?_, ?_, fun _ => by rw [h1, h2]⟩
    · intro x
      rw [h1, h2]
    · rw [h1, h2]

/-- C9 exercised at a concrete selection: toggling `2` twice on `[1, 2, 3]`
keeps contents and the order of the others. -/
theorem C9_toggle_selection_example :
    handleOptionClickMulti (handleOptionClickMulti [1, 2, 3] 2) 2 = [1, 3, 2] := by
  decide

end Fatless

namespace Fatless

/-- The decimal digit character for `n` (meaningful for `n < 10`). -/
def digitChar (n : Nat) : Char := Char.ofNat (48 + n)

/-- Numeric value of a decimal digit character. -/
def digitVal (c : Char) : Nat := c.toNat - 48

/-- Whether a character is a decimal digit (the `\d` / `[^0-9]` classes of
the source regexes). -/
def isDigitChar (c : Char) : Bool := decide (48 ≤ c.toNat) && decide (c.toNat ≤ 57)

theorem digitChar_toNat {n : Nat} (h : n < 10) : (digitChar n).toNat = 48 + n := by
  rw [digitChar]
  unfold Char.ofNat
  rw [dif_pos (by constructor; omega)]
  rfl

theorem digitVal_digitChar {n : Nat} (h : n < 10) : digitVal (digitChar n) = n := by
  rw [digitVal, digitChar_toNat h]
  omega

theorem isDigitChar_digitChar {n : Nat} (h : n < 10) :
    isDigitChar (digitChar n) = true := by
  rw [isDigitChar, digitChar_toNat h]
  simp
  omega

theorem digitChar_beq_false {n : Nat} (h : n < 10) {c : Char}
    (hc : c.toNat < 48 ∨ 57 < c.toNat) : (digitChar n == c) = false := by
  cases hbe : digitChar n == c with
  | false => rfl
  | true =>
      have he : digitChar n = c := eq_of_beq hbe
      have := digitChar_toNat h
      rw [he] at this
      omega

/-- Decimal digit expansion of a natural number, most significant first:
the model of the JS number-to-string conversion used by `toString()` and
template literals (`fuel`-structured so that the kernel can evaluate it). -/
def toDigitsAux : Nat → Nat → List Char
  | 0, _ => []
  | fuel + 1, n =>
      if n < 10 then [digitChar n]
      else toDigitsAux fuel (n / 10) ++ [digitChar (n % 10)]

/-- Decimal digits of `n` (the JS `String(n)` / `${n}` conversion for
nonnegative integers). -/
def toDigits (n : Nat) : List Char := toDigitsAux (n + 1) n

theorem toDigitsAux_fuel (n : Nat) : ∀ fuel fuel2 : Nat, n < fuel → n < fuel2 →
    toDigitsAux fuel n = toDigitsAux fuel2 n := by
  induction n using Nat.strong_induction_on with
  | _ n ih =>
      intro fuel fuel2 h h2
      match fuel, fuel2 with
      | f + 1, f2 + 1 =>
          simp only [toDigitsAux]
          by_cases h10 : n < 10
          · simp [h10]
          · rw [if_neg h10, if_neg h10]
            have hlt : n / 10 < n := Nat.div_lt_self (by omega) (by omega)
            rw [ih (n / 10) hlt f (f2 + 1) (by omega) (by omega),
              ih (n / 10) hlt (f2 + 1) f2 (by omega) (by omega)]

theorem toDigits_eq_one {n : Nat} (h : n < 10) : toDigits n = [digitChar n] := by
  simp [toDigits, toDigitsAux, h]

theorem toDigits_step {n : Nat} (h : 10 ≤ n) :
    toDigits n = toDigits (n / 10) ++ [digitChar (n % 10)] := by
  rw [toDigits, toDigits]
  rw [show toDigitsAux (n + 1) n
      = if n < 10 then [digitChar n]
        else toDigitsAux n (n / 10) ++ [digitChar (n % 10)] from rfl]
  rw [if_neg (by omega)]
  have hlt : n / 10 < n := Nat.div_lt_self (by omega) (by omega)
  congr 1
  exact toDigitsAux_fuel (n / 10) n (n / 10 + 1) (by omega) (by omega)

theorem toDigits_eq_two {n : Nat} (h1 : 10 ≤ n) (h2 : n < 100) :
    toDigits n = [digitChar (n / 10), digitChar (n % 10)] := by
  rw [toDigits_step h1, toDigits_eq_one (by omega)]
  rfl

theorem toDigits_eq_four {n : Nat} (h1 : 1000 ≤ n) (h2 : n < 10000) :
    toDigits n = [digitChar (n / 1000), digitChar (n / 100 % 10),
      digitChar (n / 10 % 10), digitChar (n % 10)] := by
  rw [toDigits_step (by omega), toDigits_step (show 10 ≤ n / 10 by omega),
    toDigits_step (show 10 ≤ n / 10 / 10 by omega),
    toDigits_eq_one (show n / 10 / 10 / 10 < 10 by omega)]
  have e1 : n / 10 / 10 = n / 100 := by omega
  rw [e1]
  rw [show n / 100 / 10 = n / 1000 by omega]
  rfl

/-- Left-to-right decimal reading of a digit-character list: the model of
the JS `Number(...)` conversion on all-digit strings. -/
def digitsToNat (l : List Char) : Nat :=
  l.foldl (fun acc c => acc * 10 + digitVal c) 0

theorem digitsToNat_two (x y : Char) :
    digitsToNat [x, y] = 10 * digitVal x + digitVal y := by
  simp [digitsToNat, List.foldl]
  omega

theorem digitsToNat_four (x y z w : Char) :
    digitsToNat [x, y, z, w] =
      1000 * digitVal x + 100 * digitVal y + 10 * digitVal z + digitVal w := by
  simp [digitsToNat, List.foldl]
  ring

/-- The JS `padStart(2, "0")` on a character list. -/
def padStart2 (l : List Char) : List Char :=
  List.replicate (2 - l.length) '0' ++ l

/-- `String(n).padStart(2, "0")` as used for day / month / hour / minute
components. -/
def pad2Nat (n : Nat) : List Char := padStart2 (toDigits n)

theorem pad2Nat_eq {n : Nat} (h : n < 100) :
    pad2Nat n = [digitChar (n / 10), digitChar (n % 10)] := by
  by_cases h10 : n < 10
  · rw [pad2Nat, toDigits_eq_one h10]
    have e0 : n / 10 = 0 := by omega
    have e1 : n % 10 = n := by omega
    rw [e0, e1]
    rfl
  · rw [pad2Nat, toDigits_eq_two (by omega) h]
    rfl

end Fatless

namespace Fatless

/-- The JS `String.prototype.split` on single-character separators (the
source uses `split(":")` and `split(/[: ]/)`): splits into the list of
maximal separator-free groups, keeping empty groups. -/
def splitChars (sep : Char → Bool) : List Char → List (List Char)
  | [] => [[]]
  | c :: rest =>
      match splitChars sep rest with
      | [] => [[c]]
      | g :: gs => if sep c then [] :: g :: gs else (c :: g) :: gs

theorem splitChars_ne_nil (sep : Char → Bool) (l : List Char) :
    splitChars sep l ≠ [] := by
  cases l with
  | nil => simp [splitChars]
  | cons c rest =>
      simp only [splitChars]
      split
      · simp
      · split <;> simp

theorem splitChars_no_sep (sep : Char → Bool) (l : List Char)
    (h : ∀ c ∈ l, sep c = false) : splitChars sep l = [l] := by
  induction l with
  | nil => rfl
  | cons c rest ih =>
      have hrest : splitChars sep rest = [rest] :=
        ih (fun x hx => h x (List.mem_cons_of_mem c hx))
      simp only [splitChars, hrest]
      rw [if_neg (by rw [h c (List.mem_cons_self c rest)]; simp)]

theorem splitChars_append (sep : Char → Bool) (a : List Char) (c : Char)
    (rest : List Char) (ha : ∀ x ∈ a, sep x = false) (hc : sep c = true) :
    splitChars sep (a ++ c :: rest) = a :: splitChars sep rest := by
  induction a with
  | nil =>
      simp only [List.nil_append, splitChars]
      rcases hs : splitChars sep rest with _ | ⟨g, gs⟩
      · exact absurd hs (splitChars_ne_nil sep rest)
      · show (if sep c = true then [] :: g :: gs else (c :: g) :: gs) = [] :: g :: gs
        rw [if_pos hc]
  | cons x a ih =>
      have hrec := ih (fun y hy => ha y (List.mem_cons_of_mem x hy))
      show (match splitChars sep (a ++ c :: rest) with
        | [] => [[x]]
        | g :: gs => if sep x = true then [] :: g :: gs else (x :: g) :: gs)
        = (x :: a) :: splitChars sep rest
      rw [hrec]
      show (if sep x = true then [] :: a :: splitChars sep rest
        else (x :: a) :: splitChars sep rest) = (x :: a) :: splitChars sep rest
      rw [if_neg (by rw [ha x (List.mem_cons_self x a)]; simp)]

end Fatless

namespace Fatless

/-- The JS `Number(...)` conversion on an optional string token (`none`
embeds `undefined`, giving `NaN`, also embedded as `none`): the empty
string converts to `0`, an all-digit string to its decimal value, anything
else to `NaN`. -/
def jsNumber : Option (List Char) → Option Nat
  | none => none
  | some [] => some 0
  | some l => if l.all isDigitChar then some (digitsToNat l) else none

/-- JS `<` on possibly-`NaN` numbers: any comparison with `NaN` is false. -/
def optLt : Option Nat → Option Nat → Bool
  | some a, some b => decide (a < b)
  | _, _ => false

/-- JS `===` on possibly-`NaN` numbers (`NaN === NaN` is false). -/
def optEq : Option Nat → Option Nat → Bool
  | some a, some b => a == b
  | _, _ => false

/-- The `isTimeDisabled` predicate of `CalendarIcon.tsx` (lines 522-544):
splits the 12-hour slot label on `[: ]`, converts to a 24-hour value
(`period === "PM" ? Number(hour) % 12 + 12 : Number(hour) % 12`), and
reports a violation of `minTime` (`hours24 < minHour || (hours24 ===
minHour && minutes < minMinute)`) or of `maxTime` (symmetrically), each
bound parsed by splitting on `:`; a missing bound is skipped. -/
def isTimeDisabled (minTime maxTime : Option String) (time : String) : Bool :=
  let parts := splitChars (fun c => (c == ':') || (c == ' ')) time.data
  let hour := jsNumber (parts.get? 0)
  let minutes := jsNumber (parts.get? 1)
  let period := parts.get? 2
  let hours24 :=
    if period == some ("PM".data) then hour.map (fun h => h % 12 + 12)
    else hour.map (fun h => h % 12)
  let minViol :=
    match minTime with
    | some mt =>
        let mparts := splitChars (fun c => c == ':') mt.data
        let minHour := jsNumber (mparts.get? 0)
        let minMinute := jsNumber (mparts.get? 1)
        optLt hours24 minHour || (optEq hours24 minHour && optLt minutes minMinute)
    | none => false
  let maxViol :=
    match maxTime with
    | some mt =>
        let mparts := splitChars (fun c => c == ':') mt.data
        let maxHour := jsNumber (mparts.get? 0)
        let maxMinute := jsNumber (mparts.get? 1)
        optLt maxHour hours24 || (optEq hours24 maxHour && optLt maxMinute minutes)
    | none => false
  minViol || maxViol

/-- One candidate slot label of `renderTimePicker` (lines 550-556):
`i * 5` minutes after midnight rendered as `hh:mm AM/PM`
(`hour24 % 12 || 12` for the displayed hour). -/
def slotChars (i : Nat) : List Char :=
  let totalMinutes := i * 5
  let hour24 := totalMinutes / 60
  let hour := if hour24 % 12 == 0 then 12 else hour24 % 12
  let minute := totalMinutes % 60
  let period := if hour24 < 12 then "AM" else "PM"
  pad2Nat hour ++ ':' :: (pad2Nat minute ++ ' ' :: period.data)

/-- One candidate slot label, as the `String` the component renders. -/
def slotString (i : Nat) : String := String.mk (slotChars i)

/-- The 288 candidate slots of `renderTimePicker`
(`Array.from({ length: 288 }, ...)`). -/
def timeSlots : List String := (List.range 288).map slotString

/-- A `"HH:MM"` 24-hour bound string built from numeric components, the
format `minTime` / `maxTime` are documented to carry. -/
def formatHHMM (h m : Nat) : String := String.mk (pad2Nat h ++ ':' :: pad2Nat m)

end Fatless

namespace Fatless

theorem pad2_not_sep {n : Nat} (h : n < 100) :
    ∀ x ∈ pad2Nat n, ((x == ':') || (x == ' ')) = false := by
  rw [pad2Nat_eq h]
  intro x hx
  have d1 : n / 10 < 10 := by omega
  have d2 : n % 10 < 10 := by omega
  rcases List.mem_pair.mp hx with rfl | rfl <;>
    rw [digitChar_beq_false (by omega) (by right; decide),
      digitChar_beq_false (by omega) (by left; decide)] <;> rfl

theorem pad2_not_colon {n : Nat} (h : n < 100) :
    ∀ x ∈ pad2Nat n, (x == ':') = false := by
  rw [pad2Nat_eq h]
  intro x hx
  rcases List.mem_pair.mp hx with rfl | rfl <;>
    exact digitChar_beq_false (by omega) (by right; decide)

theorem jsNumber_pad2 {n : Nat} (h : n < 100) :
    jsNumber (some (pad2Nat n)) = some n := by
  have d1 : n / 10 < 10 := by omega
  have d2 : n % 10 < 10 := by omega
  rw [pad2Nat_eq h]
  show (if [digitChar (n / 10), digitChar (n % 10)].all isDigitChar
      then some (digitsToNat [digitChar (n / 10), digitChar (n % 10)])
      else none) = some n
  rw [if_pos (by simp [List.all_cons, isDigitChar_digitChar d1, isDigitChar_digitChar d2])]
  rw [digitsToNat_two, digitVal_digitChar d1, digitVal_digitChar d2]
  congr 1
  omega

theorem parts_slot (i : Nat) :
    splitChars (fun c => (c == ':') || (c == ' '))
      (slotString i).data
      = [pad2Nat (if (i * 5 / 60) % 12 == 0 then 12 else (i * 5 / 60) % 12),
         pad2Nat (i * 5 % 60),
         (if i * 5 / 60 < 12 then "AM" else "PM").data] := by
  have hh : (if (i * 5 / 60) % 12 == 0 then 12 else (i * 5 / 60) % 12) < 100 := by
    split <;> omega
  show splitChars _
      (pad2Nat (if (i * 5 / 60) % 12 == 0 then 12 else (i * 5 / 60) % 12)
        ++ ':' :: (pad2Nat (i * 5 % 60) ++ ' '
          :: (if i * 5 / 60 < 12 then "AM" else "PM").data)) = _
  rw [splitChars_append _ _ ':' _ (pad2_not_sep hh) (by decide)]
  rw [splitChars_append _ _ ' ' _ (pad2_not_sep (by omega)) (by decide)]
  rw [splitChars_no_sep _ _ (by split <;> decide)]

theorem parts_hhmm (h m : Nat) (hh : h < 100) (hm : m < 100) :
    splitChars (fun c => c == ':') (formatHHMM h m).data = [pad2Nat h, pad2Nat m] := by
  show splitChars _ (pad2Nat h ++ ':' :: pad2Nat m) = _
  rw [splitChars_append _ _ ':' _ (pad2_not_colon hh) (by decide)]
  rw [splitChars_no_sep _ _ (pad2_not_colon hm)]

end Fatless

namespace Fatless

theorem boundCheck_iff (minB maxB : Option (Nat × Nat))
    (hminB : ∀ p ∈ minB, p.1 < 24 ∧ p.2 < 60)
    (hmaxB : ∀ p ∈ maxB, p.1 < 24 ∧ p.2 < 60)
    (h24 mm tm : Nat) (hmm : mm < 60) (htm : tm = h24 * 60 + mm) :
    ((match Option.map (fun p => formatHHMM p.1 p.2) minB with
      | some mt =>
          optLt (some h24) (jsNumber ((splitChars (fun c => c == ':') mt.data).get? 0)) ||
            (optEq (some h24) (jsNumber ((splitChars (fun c => c == ':') mt.data).get? 0)) &&
              optLt (some mm) (jsNumber ((splitChars (fun c => c == ':') mt.data).get? 1)))
      | none => false) ||
      (match Option.map (fun p => formatHHMM p.1 p.2) maxB with
      | some mt =>
          optLt (jsNumber ((splitChars (fun c => c == ':') mt.data).get? 0)) (some h24) ||
            (optEq (some h24) (jsNumber ((splitChars (fun c => c == ':') mt.data).get? 0)) &&
              optLt (jsNumber ((splitChars (fun c => c == ':') mt.data).get? 1)) (some mm))
      | none => false)) = false
    ↔ ((∀ p ∈ minB, p.1 * 60 + p.2 ≤ tm) ∧ (∀ p ∈ maxB, tm ≤ p.1 * 60 + p.2)) := by
  rcases minB with _ | ⟨H1, M1⟩ <;> rcases maxB with _ | ⟨H2, M2⟩ <;>
    simp only [Option.map_some', Option.map_none']
  case none.none => simp
  case none.some.mk =>
      have h1 : H2 < 24 := (hmaxB (H2, M2) rfl).1
      have h2 : M2 < 60 := (hmaxB (H2, M2) rfl).2
      rw [parts_hhmm H2 M2 (by omega) (by omega)]
      simp only [List.get?]
      rw [jsNumber_pad2 (show H2 < 100 by omega), jsNumber_pad2 (show M2 < 100 by omega)]
      subst htm
      simp only [optLt, optEq, Option.mem_def]
      simp
      omega
  case some.mk.none =>
      have h1 : H1 < 24 := (hminB (H1, M1) rfl).1
      have h2 : M1 < 60 := (hminB (H1, M1) rfl).2
      rw [parts_hhmm H1 M1 (by omega) (by omega)]
      simp only [List.get?]
      rw [jsNumber_pad2 (show H1 < 100 by omega), jsNumber_pad2 (show M1 < 100 by omega)]
      subst htm
      simp only [optLt, optEq, Option.mem_def]
      simp
      omega
  case some.mk.some.mk =>
      have h1 : H1 < 24 := (hminB (H1, M1) rfl).1
      have h2 : M1 < 60 := (hminB (H1, M1) rfl).2
      have h3 : H2 < 24 := (hmaxB (H2, M2) rfl).1
      have h4 : M2 < 60 := (hmaxB (H2, M2) rfl).2
      rw [parts_hhmm H1 M1 (by omega) (by omega), parts_hhmm H2 M2 (by omega) (by omega)]
      simp only [List.get?]
      rw [jsNumber_pad2 (show H1 < 100 by omega), jsNumber_pad2 (show M1 < 100 by omega),
        jsNumber_pad2 (show H2 < 100 by omega), jsNumber_pad2 (show M2 < 100 by omega)]
      subst htm
      simp only [optLt, optEq, Option.mem_def]
      simp
      omega

/-- C8: when the time picker is shown it enumerates exactly 288 slots at
5-minute steps from `"12:00 AM"` (slot 0) through `"11:55 PM"` (slot 287),
and a slot `i` is selectable (`isTimeDisabled = false`) iff, converting the
slot and each supplied `"HH:MM"` bound to minutes since midnight,
`minTime <= i * 5` and `i * 5 <= maxTime`, each bound being ignored when
absent.  Bounds are given as hour/minute pairs rendered in the documented
`"HH:MM"` format. -/
theorem C8_time_slots (minB maxB : Option (Nat × Nat))
    (hminB : ∀ p ∈ minB, p.1 < 24 ∧ p.2 < 60)
    (hmaxB : ∀ p ∈ maxB, p.1 < 24 ∧ p.2 < 60) :
    timeSlots.length = 288
  ∧ timeSlots.get? 0 = some "12:00 AM"
  ∧ timeSlots.get? 287 = some "11:55 PM"
  ∧ ∀ i, i < 288 →
      (isTimeDisabled (minB.map (fun p => formatHHMM p.1 p.2))
          (maxB.map (fun p => formatHHMM p.1 p.2)) (slotString i) = false
        ↔ ((∀ p ∈ minB, p.1 * 60 + p.2 ≤ i * 5)
            ∧ (∀ p ∈ maxB, i * 5 ≤ p.1 * 60 + p.2))) := by
  refine ⟨by simp [timeSlots], by decide, by decide, ?_⟩
  intro i hi
  have hDlt : (if (i * 5 / 60) % 12 == 0 then 12 else (i * 5 / 60) % 12) < 100 := by
    split <;> omega
  have hh24 : i * 5 / 60 < 24 := by omega
  simp only [isTimeDisabled, parts_slot i, List.get?]
  rw [jsNumber_pad2 hDlt, jsNumber_pad2 (show i * 5 % 60 < 100 by omega)]
  have hcalcAM : i * 5 / 60 < 12 →
      (if (i * 5 / 60 % 12 == 0) = true then 12 else i * 5 / 60 % 12) % 12
        = i * 5 / 60 := by
    intro h
    by_cases hz : i * 5 / 60 % 12 = 0
    · rw [if_pos (by simpa using hz)]
      omega
    · rw [if_neg (by simpa using hz)]
      omega
  have hcalcPM : ¬(i * 5 / 60 < 12) →
      (if (i * 5 / 60 % 12 == 0) = true then 12 else i * 5 / 60 % 12) % 12 + 12
        = i * 5 / 60 := by
    intro h
    by_cases hz : i * 5 / 60 % 12 = 0
    · rw [if_pos (by simpa using hz)]
      omega
    · rw [if_neg (by simpa using hz)]
      omega
  by_cases hampm : i * 5 / 60 < 12
  · rw [if_pos hampm]
    rw [if_neg (by decide)]
    simp only [Option.map_some', hcalcAM hampm]
    exact boundCheck_iff minB maxB hminB hmaxB (i * 5 / 60) (i * 5 % 60) (i * 5)
      (by omega) (by omega)
  · rw [if_neg hampm, if_pos (by decide)]
    simp only [Option.map_some', hcalcPM hampm]
    exact boundCheck_iff minB maxB hminB hmaxB (i * 5 / 60) (i * 5 % 60) (i * 5)
      (by omega) (by omega)

/-- C8 witness: with `minTime = "09:00"` and `maxTime = "16:00"`, the
9:00 AM slot (index 108) is selectable and the midnight slot is not. -/
theorem C8_time_slots_witness :
    isTimeDisabled (some (formatHHMM 9 0)) (some (formatHHMM 16 0))
      (slotString 108) = false := by
  have h := ((C8_time_slots (some (9, 0)) (some (16, 0)) (by simp) (by simp)).2.2.2
    108 (by omega)).mpr (by constructor <;> simp)
  exact h

end Fatless

namespace Fatless

/-- A JS `Date` value reduced to its date components (year/month/day as
`getFullYear()` / `getMonth() + 1` / `getDate()` would report them; time of
day plays no role in the date claims).  `month` is 1-based. -/
structure SimpleDate where
  year : Int
  month : Nat
  day : Nat
deriving DecidableEq, Repr

/-- Whether a year is a Gregorian leap year (the rule the JS `Date`
normalization follows). -/
def isLeapYear (y : Int) : Bool :=
  y.emod 4 == 0 && (!(y.emod 100 == 0) || y.emod 400 == 0)

/-- Days in a (1-based) month of a given year. -/
def daysInMonth (y : Int) (m : Nat) : Nat :=
  if m == 2 then (if isLeapYear y then 29 else 28)
  else if m == 4 || m == 6 || m == 9 || m == 11 then 30
  else 31

/-- Day-overflow normalization of the JS `Date` constructor: starting from a
1-based month and a day count of at least 1, carry whole months while the
day exceeds the month length.  Fuel-structured (8 steps cover every day
value two-digit parsing can produce). -/
def fixDay : Nat → Int → Nat → Nat → SimpleDate
  | 0, y, m, d => { year := y, month := m, day := d }
  | fuel + 1, y, m, d =>
      if d ≤ daysInMonth y m then { year := y, month := m, day := d }
      else if m == 12 then fixDay fuel (y + 1) 1 (d - 31)
      else fixDay fuel y (m + 1) (d - daysInMonth y m)

/-- The JS `new Date(year, monthIndex, day)` constructor on date components:
a year argument in `0..99` is remapped to `1900..1999`, the 0-based month
index is normalized into the year (floor division), `day = 0` borrows the
last day of the previous month, and larger days carry forward month by
month.  This is the component-overflow semantics the source relies on
(`new Date(Number(year), Number(month) - 1, Number(day))`). -/
def newDateYMD (y m0 : Int) (d : Nat) : SimpleDate :=
  let y1 := if 0 ≤ y && y ≤ 99 then y + 1900 else y
  let ny := y1 + m0.ediv 12
  let nm := (m0.emod 12).toNat + 1
  if d == 0 then
    if nm == 1 then { year := ny - 1, month := 12, day := 31 }
    else { year := ny, month := nm - 1, day := daysInMonth ny (nm - 1) }
  else fixDay 8 ny nm d

/-- Days since 1970-01-01 of a civil date (proleptic Gregorian), the
timestamp arithmetic underlying JS `Date` comparisons and `getDay()`. -/
def daysFromCivil (y : Int) (m : Nat) (d : Nat) : Int :=
  let y2 := if m ≤ 2 then y - 1 else y
  let era := y2.fdiv 400
  let yoe := (y2 - era * 400).toNat
  let mp := (m + 9) % 12
  let doy := (153 * mp + 2) / 5 + (d - 1)
  let doe := yoe * 365 + yoe / 4 - yoe / 100 + doy
  era * 146097 + (doe : Int) - 719468

/-- The JS `Date.prototype.getDay()`: 0 = Sunday … 6 = Saturday
(1970-01-01 was a Thursday, day 4). -/
def getDay (d : SimpleDate) : Nat :=
  ((daysFromCivil d.year d.month d.day + 4).emod 7).toNat

/-- Strict date order on day precision: the timestamp order of the source's
`date < new Date(minDate.setHours(0,0,0,0))` and
`date > new Date(maxDate.setHours(23,59,59,999))` comparisons, both sides
taken at day granularity. -/
def dateLt (a b : SimpleDate) : Bool :=
  a.year < b.year
    || (a.year == b.year
        && (a.month < b.month || (a.month == b.month && a.day < b.day)))

/-- The constraint inputs of the `DateInput` component that
`isDateDisabled` consults. -/
structure DateCfg where
  disabled : Bool
  minDate : Option SimpleDate
  maxDate : Option SimpleDate
  noWeekends : Bool

/-- The `isDateDisabled` predicate of `CalendarIcon.tsx` (lines 249-255):
disabled widget, date before the start of `minDate`'s day, after the end of
`maxDate`'s day, or falling on a weekend when `noWeekends`. -/
def isDateDisabled (cfg : DateCfg) (date : SimpleDate) : Bool :=
  if cfg.disabled then true
  else if (match cfg.minDate with
    | some mn => dateLt date mn
    | none => false) then true
  else if (match cfg.maxDate with
    | some mx => dateLt mx date
    | none => false) then true
  else if cfg.noWeekends && (getDay date == 0 || getDay date == 6) then true
  else false

/-- The five `dateFormat` values of `DateInputType`. -/
inductive DateFmt where
  | MMddyyyy
  | ddMMyyyy
  | yyyyMMdd
  | MMMMddyyyy
  | LLLddyyyy
deriving DecidableEq, Repr

/-- English long month names (`toLocaleString('default', { month: 'long' })`
in the en locale the component assumes). -/
def monthLongNames : List String :=
  ["January", "February", "March", "April", "May", "June", "July",
   "August", "September", "October", "November", "December"]

/-- English short month names (`{ month: 'short' }`). -/
def monthShortNames : List String :=
  ["Jan", "Feb", "Mar", "Apr", "May", "Jun", "Jul",
   "Aug", "Sep", "Oct", "Nov", "Dec"]

/-- JS `String(...)` of an integer year as used in the format templates. -/
def intToChars (i : Int) : List Char :=
  if i < 0 then '-' :: toDigits i.natAbs else toDigits i.toNat

/-- The `formatDate` function of `CalendarIcon.tsx` (lines 195-218):
2-digit padded day and month, unpadded year, long/short month name for the
two textual formats. -/
def formatDate (fmt : DateFmt) (d : SimpleDate) : List Char :=
  let day2 := pad2Nat d.day
  let month2 := pad2Nat d.month
  let yearChars := intToChars d.year
  match fmt with
  | DateFmt.MMddyyyy => month2 ++ '/' :: day2 ++ '/' :: yearChars
  | DateFmt.ddMMyyyy => day2 ++ '/' :: month2 ++ '/' :: yearChars
  | DateFmt.yyyyMMdd => yearChars ++ '-' :: month2 ++ '-' :: day2
  | DateFmt.MMMMddyyyy =>
      ((monthLongNames.get? (d.month - 1)).getD "").data
        ++ ' ' :: day2 ++ ',' :: ' ' :: yearChars
  | DateFmt.LLLddyyyy =>
      ((monthShortNames.get? (d.month - 1)).getD "").data
        ++ ' ' :: day2 ++ ',' :: ' ' :: yearChars

/-- ASCII letter test (the `[a-zA-Z]` class of the fallback regex and the
month-name token of the date-string parser). -/
def isAlphaChar (c : Char) : Bool :=
  (decide (65 ≤ c.toNat) && decide (c.toNat ≤ 90))
    || (decide (97 ≤ c.toNat) && decide (c.toNat ≤ 122))

/-- Month index (0-based) of an exact long or short English month name, the
lookup the JS date-string parser performs on `"MonthName ..."` strings. -/
def monthFromName (tok : List Char) : Option Nat :=
  match monthLongNames.findIdx? (fun n => n.data == tok) with
  | some i => some i
  | none => monthShortNames.findIdx? (fun n => n.data == tok)

end Fatless

namespace Fatless

/-- The V8 `new Date(string)` parser restricted to the
`"MonthName dd, yyyy"` shapes this component feeds it (lines 281 and 287 of
`CalendarIcon.tsx`): a month-name token, a space, a digit day token, a
comma-space, and a digit year token; two-digit years are remapped to
`19xx`, and the resulting components go through the `Date` constructor
normalization. -/
def jsParseMonthNameDate (s : List Char) : Option SimpleDate :=
  let p1 := s.span isAlphaChar
  match p1.2 with
  | ' ' :: rest2 =>
      let p2 := rest2.span isDigitChar
      match p2.2 with
      | ',' :: ' ' :: rest4 =>
          if !p2.1.isEmpty && !rest4.isEmpty && rest4.all isDigitChar then
            match monthFromName p1.1 with
            | some mIdx =>
                let dayN := digitsToNat p2.1
                let yN := digitsToNat rest4
                let yN2 := if yN < 100 then 1900 + yN else yN
                some (newDateYMD yN2 mIdx dayN)
            | none => none
          else none
      | _ => none
  | _ => none

/-- The fallback manual parse of `validateAndPropagateDate` (lines 283-291):
the regex `^([a-zA-Z]+) (\d{2}), (\d{4})$`, month index obtained by parsing
`"MonthName 1, 2000"`, then `new Date(Number(year), monthIndex,
Number(day))`. -/
def fallbackMonthNameParse (s : List Char) : Option SimpleDate :=
  let p1 := s.span isAlphaChar
  match p1.2 with
  | ' ' :: rest2 =>
      match rest2 with
      | d1 :: d2 :: ',' :: ' ' :: y1 :: y2 :: y3 :: y4 :: [] =>
          if !p1.1.isEmpty && [d1, d2, y1, y2, y3, y4].all isDigitChar then
            match monthFromName p1.1 with
            | some mIdx =>
                some (newDateYMD (digitsToNat [y1, y2, y3, y4]) mIdx
                  (digitsToNat [d1, d2]))
            | none => none
          else none
      | _ => none
  | _ => none

/-- The format-directed parse of `validateAndPropagateDate` (lines 258-293):
the three numeric formats match their anchored digit regexes and build
`new Date(year, month - 1, day)`; the two month-name formats first try the
JS date-string parser and fall back to the manual regex parse.  `none`
embeds both "no regex match" (`date` stays `null`) and an invalid date
(`isNaN(date.getTime())`). -/
def parseDate (fmt : DateFmt) (s : List Char) : Option SimpleDate :=
  match fmt with
  | DateFmt.MMddyyyy =>
      match s with
      | [a, b, '/', c, d, '/', e, f, g, h] =>
          if [a, b, c, d, e, f, g, h].all isDigitChar then
            some (newDateYMD
              (digitsToNat [e, f, g, h])
              ((digitsToNat [a, b] : Int) - 1)
              (digitsToNat [c, d]))
          else none
      | _ => none
  | DateFmt.ddMMyyyy =>
      match s with
      | [a, b, '/', c, d, '/', e, f, g, h] =>
          if [a, b, c, d, e, f, g, h].all isDigitChar then
            some (newDateYMD
              (digitsToNat [e, f, g, h])
              ((digitsToNat [c, d] : Int) - 1)
              (digitsToNat [a, b]))
          else none
      | _ => none
  | DateFmt.yyyyMMdd =>
      match s with
      | [a, b, c, d, '-', e, f, '-', g, h] =>
          if [a, b, c, d, e, f, g, h].all isDigitChar then
            some (newDateYMD
              (digitsToNat [a, b, c, d])
              ((digitsToNat [e, f] : Int) - 1)
              (digitsToNat [g, h]))
          else none
      | _ => none
  | DateFmt.MMMMddyyyy =>
      match jsParseMonthNameDate s with
      | some d => some d
      | none => fallbackMonthNameParse s
  | DateFmt.LLLddyyyy =>
      match jsParseMonthNameDate s with
      | some d => some d
      | none => fallbackMonthNameParse s

/-- The out-of-range message of `validateAndPropagateDate` (lines 302-307):
`"Date must be "` + optional `"after <formatted min>"` + `" "` + optional
`"and before <formatted max>"` + `"."`, phrased with the active format. -/
def boundMessage (cfg : DateCfg) (fmt : DateFmt) : String :=
  "Date must be "
    ++ (match cfg.minDate with
        | some mn => "after " ++ String.mk (formatDate fmt mn)
        | none => "")
    ++ " "
    ++ (match cfg.maxDate with
        | some mx => "and before " ++ String.mk (formatDate fmt mx)
        | none => "")
    ++ "."

/-- The `validateAndPropagateDate` handler (lines 257-314): parse the typed
text; on a parsed (valid) date, either clear the error and propagate the
date through `onChange`, or — when the date is disabled/out of range — set
the bound message and propagate `null`; on an unparsable/incomplete text,
clear the error and propagate `null`.  The returned pair is
(`setErrorMessage` argument, `onChange` argument). -/
def validateAndPropagateDate (cfg : DateCfg) (fmt : DateFmt) (s : List Char) :
    String × Option SimpleDate :=
  match parseDate fmt s with
  | some d =>
      if !(isDateDisabled cfg d) then ("", some d)
      else
        ((if isDateDisabled cfg d then boundMessage cfg fmt else "Invalid date."),
          none)
  | none => ("", none)

end Fatless

namespace Fatless

theorem takeWhile_append_cons (p : Char → Bool) (a : List Char) (c : Char)
    (b : List Char) (ha : ∀ x ∈ a, p x = true) (hc : p c = false) :
    (a ++ c :: b).takeWhile p = a := by
  induction a with
  | nil => simp [List.takeWhile_cons, hc]
  | cons x a ih =>
      have hx : p x = true := ha x (List.mem_cons_self x a)
      simp only [List.cons_append, List.takeWhile_cons, hx, if_true]
      rw [ih (fun y hy => ha y (List.mem_cons_of_mem x hy))]

theorem dropWhile_append_cons (p : Char → Bool) (a : List Char) (c : Char)
    (b : List Char) (ha : ∀ x ∈ a, p x = true) (hc : p c = false) :
    (a ++ c :: b).dropWhile p = c :: b := by
  induction a with
  | nil => simp [List.dropWhile_cons, hc]
  | cons x a ih =>
      have hx : p x = true := ha x (List.mem_cons_self x a)
      simp only [List.cons_append, List.dropWhile_cons, hx, if_true]
      exact ih (fun y hy => ha y (List.mem_cons_of_mem x hy))

theorem span_append_cons (p : Char → Bool) (a : List Char) (c : Char)
    (b : List Char) (ha : ∀ x ∈ a, p x = true) (hc : p c = false) :
    (a ++ c :: b).span p = (a, c :: b) := by
  rw [List.span_eq_take_drop, takeWhile_append_cons p a c b ha hc,
    dropWhile_append_cons p a c b ha hc]

theorem daysInMonth_le (y : Int) (m : Nat) : daysInMonth y m ≤ 31 := by
  rw [daysInMonth]
  split
  · split <;> omega
  · split <;> omega

theorem daysInMonth_pos (y : Int) (m : Nat) : 1 ≤ daysInMonth y m := by
  rw [daysInMonth]
  split
  · split <;> omega
  · split <;> omega

/-- The `Date` constructor is the identity on already-normalized components
with a four-digit-or-larger year. -/
theorem newDateYMD_id (y : Int) (m d : Nat) (hy : 100 ≤ y)
    (hm1 : 1 ≤ m) (hm2 : m ≤ 12) (hd1 : 1 ≤ d) (hd2 : d ≤ daysInMonth y m) :
    newDateYMD y ((m : Int) - 1) d = { year := y, month := m, day := d } := by
  simp only [newDateYMD]
  rw [show ((decide (0 ≤ y) && decide (y ≤ 99)) = false) by
    simp only [Bool.and_eq_false_iff, decide_eq_false_iff_not]
    omega]
  rw [show (((m : Int) - 1).ediv 12) = 0 from
      Int.ediv_eq_zero_of_lt (by omega) (by omega),
    show (((m : Int) - 1).emod 12) = (m : Int) - 1 from
      Int.emod_eq_of_lt (by omega) (by omega)]
  simp only [Bool.false_eq_true, if_false]
  rw [show (((m : Int) - 1).toNat + 1) = m by omega]
  rw [show ((d == 0) = false) by simp; omega]
  simp only [Bool.false_eq_true, if_false]
  show (if d ≤ daysInMonth (y + 0) m then
      ({ year := y + 0, month := m, day := d } : SimpleDate)
    else _) = _
  rw [if_pos (by simpa using hd2)]
  simp

theorem digitsToNat_two_digits {n : Nat} (h : n < 100) :
    digitsToNat [digitChar (n / 10), digitChar (n % 10)] = n := by
  rw [digitsToNat_two, digitVal_digitChar (by omega), digitVal_digitChar (by omega)]
  omega

theorem digitsToNat_four_digits {n : Nat} (h1 : 1000 ≤ n) (h2 : n < 10000) :
    digitsToNat [digitChar (n / 1000), digitChar (n / 100 % 10),
      digitChar (n / 10 % 10), digitChar (n % 10)] = n := by
  rw [digitsToNat_four, digitVal_digitChar (by omega), digitVal_digitChar (by omega),
    digitVal_digitChar (by omega), digitVal_digitChar (by omega)]
  omega

theorem digitsToNat_pad2 {n : Nat} (h : n < 100) :
    digitsToNat (pad2Nat n) = n := by
  rw [pad2Nat_eq h]
  exact digitsToNat_two_digits h

theorem all_digits_8 (a b c d e f g h : Nat) (ha : a < 10) (hb : b < 10)
    (hc : c < 10) (hd : d < 10) (he : e < 10) (hf : f < 10) (hg : g < 10)
    (hh : h < 10) :
    ([digitChar a, digitChar b, digitChar c, digitChar d, digitChar e,
      digitChar f, digitChar g, digitChar h].all isDigitChar) = true := by
  simp [List.all_cons, isDigitChar_digitChar ha, isDigitChar_digitChar hb,
    isDigitChar_digitChar hc, isDigitChar_digitChar hd, isDigitChar_digitChar he,
    isDigitChar_digitChar hf, isDigitChar_digitChar hg, isDigitChar_digitChar hh]

end Fatless

namespace Fatless

theorem parse_format_ddMMyyyy (y : Int) (m d : Nat)
    (hy1 : 1000 ≤ y) (hy2 : y ≤ 9999) (hm1 : 1 ≤ m) (hm2 : m ≤ 12)
    (hd1 : 1 ≤ d) (hd2 : d ≤ daysInMonth y m) :
    parseDate DateFmt.ddMMyyyy (pad2Nat d ++ '/' :: pad2Nat m ++ '/' :: intToChars y)
      = some { year := y, month := m, day := d } := by
  have hdlt : d < 100 := by have := daysInMonth_le y m; omega
  have hmlt : m < 100 := by omega
  have hy0 : ¬ y < 0 := by omega
  have hyn1 : 1000 ≤ y.toNat := by omega
  have hyn2 : y.toNat < 10000 := by omega
  rw [pad2Nat_eq hdlt, pad2Nat_eq hmlt, intToChars, if_neg hy0,
    toDigits_eq_four hyn1 hyn2]
  rw [show parseDate DateFmt.ddMMyyyy
      ([digitChar (d / 10), digitChar (d % 10)]
        ++ ['/', digitChar (m / 10), digitChar (m % 10)]
        ++ ['/', digitChar (y.toNat / 1000), digitChar (y.toNat / 100 % 10),
            digitChar (y.toNat / 10 % 10), digitChar (y.toNat % 10)])
      = (if [digitChar (d / 10), digitChar (d % 10), digitChar (m / 10),
            digitChar (m % 10), digitChar (y.toNat / 1000),
            digitChar (y.toNat / 100 % 10), digitChar (y.toNat / 10 % 10),
            digitChar (y.toNat % 10)].all isDigitChar then
          some (newDateYMD
            (digitsToNat [digitChar (y.toNat / 1000), digitChar (y.toNat / 100 % 10),
              digitChar (y.toNat / 10 % 10), digitChar (y.toNat % 10)])
            ((digitsToNat [digitChar (m / 10), digitChar (m % 10)] : Int) - 1)
            (digitsToNat [digitChar (d / 10), digitChar (d % 10)]))
        else none) from rfl]
  rw [if_pos (all_digits_8 _ _ _ _ _ _ _ _ (by omega) (by omega) (by omega)
    (by omega) (by omega) (by omega) (by omega) (by omega))]
  rw [digitsToNat_four_digits hyn1 hyn2, digitsToNat_two_digits hmlt,
    digitsToNat_two_digits hdlt]
  rw [show ((y.toNat : Int)) = y by omega]
  exact congrArg some (newDateYMD_id y m d (by omega) hm1 hm2 hd1 hd2)

end Fatless

namespace Fatless

theorem parse_format_MMddyyyy (y : Int) (m d : Nat)
    (hy1 : 1000 ≤ y) (hy2 : y ≤ 9999) (hm1 : 1 ≤ m) (hm2 : m ≤ 12)
    (hd1 : 1 ≤ d) (hd2 : d ≤ daysInMonth y m) :
    parseDate DateFmt.MMddyyyy (pad2Nat m ++ '/' :: pad2Nat d ++ '/' :: intToChars y)
      = some { year := y, month := m, day := d } := by
  have hdlt : d < 100 := by have := daysInMonth_le y m; omega
  have hmlt : m < 100 := by omega
  have hy0 : ¬ y < 0 := by omega
  have hyn1 : 1000 ≤ y.toNat := by omega
  have hyn2 : y.toNat < 10000 := by omega
  rw [pad2Nat_eq hdlt, pad2Nat_eq hmlt, intToChars, if_neg hy0,
    toDigits_eq_four hyn1 hyn2]
  rw [show parseDate DateFmt.MMddyyyy
      ([digitChar (m / 10), digitChar (m % 10)]
        ++ ['/', digitChar (d / 10), digitChar (d % 10)]
        ++ ['/', digitChar (y.toNat / 1000), digitChar (y.toNat / 100 % 10),
            digitChar (y.toNat / 10 % 10), digitChar (y.toNat % 10)])
      = (if [digitChar (m / 10), digitChar (m % 10), digitChar (d / 10),
            digitChar (d % 10), digitChar (y.toNat / 1000),
            digitChar (y.toNat / 100 % 10), digitChar (y.toNat / 10 % 10),
            digitChar (y.toNat % 10)].all isDigitChar then
          some (newDateYMD
            (digitsToNat [digitChar (y.toNat / 1000), digitChar (y.toNat / 100 % 10),
              digitChar (y.toNat / 10 % 10), digitChar (y.toNat % 10)])
            ((digitsToNat [digitChar (m / 10), digitChar (m % 10)] : Int) - 1)
            (digitsToNat [digitChar (d / 10), digitChar (d % 10)]))
        else none) from rfl]
  rw [if_pos (all_digits_8 _ _ _ _ _ _ _ _ (by omega) (by omega) (by omega)
    (by omega) (by omega) (by omega) (by omega) (by omega))]
  rw [digitsToNat_four_digits hyn1 hyn2, digitsToNat_two_digits hmlt,
    digitsToNat_two_digits hdlt]
  rw [show ((y.toNat : Int)) = y by omega]
  exact congrArg some (newDateYMD_id y m d (by omega) hm1 hm2 hd1 hd2)

theorem parse_format_yyyyMMdd (y : Int) (m d : Nat)
    (hy1 : 1000 ≤ y) (hy2 : y ≤ 9999) (hm1 : 1 ≤ m) (hm2 : m ≤ 12)
    (hd1 : 1 ≤ d) (hd2 : d ≤ daysInMonth y m) :
    parseDate DateFmt.yyyyMMdd (intToChars y ++ '-' :: pad2Nat m ++ '-' :: pad2Nat d)
      = some { year := y, month := m, day := d } := by
  have hdlt : d < 100 := by have := daysInMonth_le y m; omega
  have hmlt : m < 100 := by omega
  have hy0 : ¬ y < 0 := by omega
  have hyn1 : 1000 ≤ y.toNat := by omega
  have hyn2 : y.toNat < 10000 := by omega
  rw [pad2Nat_eq hdlt, pad2Nat_eq hmlt, intToChars, if_neg hy0,
    toDigits_eq_four hyn1 hyn2]
  rw [show parseDate DateFmt.yyyyMMdd
      ([digitChar (y.toNat / 1000), digitChar (y.toNat / 100 % 10),
          digitChar (y.toNat / 10 % 10), digitChar (y.toNat % 10)]
        ++ ['-', digitChar (m / 10), digitChar (m % 10)]
        ++ ['-', digitChar (d / 10), digitChar (d % 10)])
      = (if [digitChar (y.toNat / 1000), digitChar (y.toNat / 100 % 10),
            digitChar (y.toNat / 10 % 10), digitChar (y.toNat % 10),
            digitChar (m / 10), digitChar (m % 10), digitChar (d / 10),
            digitChar (d % 10)].all isDigitChar then
          some (newDateYMD
            (digitsToNat [digitChar (y.toNat / 1000), digitChar (y.toNat / 100 % 10),
              digitChar (y.toNat / 10 % 10), digitChar (y.toNat % 10)])
            ((digitsToNat [digitChar (m / 10), digitChar (m % 10)] : Int) - 1)
            (digitsToNat [digitChar (d / 10), digitChar (d % 10)]))
        else none) from rfl]
  rw [if_pos (all_digits_8 _ _ _ _ _ _ _ _ (by omega) (by omega) (by omega)
    (by omega) (by omega) (by omega) (by omega) (by omega))]
  rw [digitsToNat_four_digits hyn1 hyn2, digitsToNat_two_digits hmlt,
    digitsToNat_two_digits hdlt]
  rw [show ((y.toNat : Int)) = y by omega]
  exact congrArg some (newDateYMD_id y m d (by omega) hm1 hm2 hd1 hd2)

end Fatless

namespace Fatless

theorem all_digits_4 (a b c d : Nat) (ha : a < 10) (hb : b < 10)
    (hc : c < 10) (hd : d < 10) :
    ([digitChar a, digitChar b, digitChar c, digitChar d].all isDigitChar) = true := by
  simp [List.all_cons, isDigitChar_digitChar ha, isDigitChar_digitChar hb,
    isDigitChar_digitChar hc, isDigitChar_digitChar hd]

theorem pad2_all_digits {n : Nat} (h : n < 100) :
    ∀ x ∈ pad2Nat n, isDigitChar x = true := by
  rw [pad2Nat_eq h]
  intro x hx
  rcases List.mem_pair.mp hx with rfl | rfl
  · exact isDigitChar_digitChar (by omega)
  · exact isDigitChar_digitChar (by omega)

theorem jsParse_parts {s nameTok dayTok yearTok : List Char}
    (h1 : s.span isAlphaChar = (nameTok, ' ' :: (dayTok ++ ',' :: ' ' :: yearTok)))
    (h2 : (dayTok ++ ',' :: ' ' :: yearTok).span isDigitChar
      = (dayTok, ',' :: ' ' :: yearTok)) :
    jsParseMonthNameDate s
      = (if (!dayTok.isEmpty && !yearTok.isEmpty && yearTok.all isDigitChar) then
          match monthFromName nameTok with
          | some mIdx =>
              some (newDateYMD
                ((if digitsToNat yearTok < 100 then 1900 + digitsToNat yearTok
                  else digitsToNat yearTok : Nat) : Int)
                (mIdx : Int) (digitsToNat dayTok))
          | none => none
        else none) := by
  simp only [jsParseMonthNameDate, h1, h2]

theorem jsParse_of_format (y : Int) (m d : Nat) (name : String)
    (hy1 : 1000 ≤ y) (hy2 : y ≤ 9999) (hm1 : 1 ≤ m) (hm2 : m ≤ 12)
    (hd1 : 1 ≤ d) (hd2 : d ≤ daysInMonth y m)
    (halpha : ∀ x ∈ name.data, isAlphaChar x = true)
    (hnm : monthFromName name.data = some (m - 1)) :
    jsParseMonthNameDate
      (name.data ++ ' ' :: (pad2Nat d ++ ',' :: ' ' :: intToChars y))
      = some { year := y, month := m, day := d } := by
  have hdlt : d < 100 := by have := daysInMonth_le y m; omega
  have hy0 : ¬ y < 0 := by omega
  have hyn1 : 1000 ≤ y.toNat := by omega
  have hyn2 : y.toNat < 10000 := by omega
  have h1 := span_append_cons isAlphaChar name.data ' '
    (pad2Nat d ++ ',' :: ' ' :: intToChars y) halpha (by decide)
  have h2 := span_append_cons isDigitChar (pad2Nat d) ','
    (' ' :: intToChars y) (pad2_all_digits hdlt) (by decide)
  rw [jsParse_parts h1 h2, hnm, pad2Nat_eq hdlt, intToChars, if_neg hy0,
    toDigits_eq_four hyn1 hyn2, digitsToNat_four_digits hyn1 hyn2,
    digitsToNat_two_digits hdlt]
  rw [if_neg (show ¬ (y.toNat < 100) by omega)]
  rw [show ((y.toNat : Int)) = y by omega]
  rw [all_digits_4 _ _ _ _ (by omega) (by omega) (by omega) (by omega)]
  show some (newDateYMD y (((m - 1 : Nat) : Int)) d)
    = some { year := y, month := m, day := d }
  rw [show ((m - 1 : Nat) : Int) = (m : Int) - 1 by omega]
  rw [newDateYMD_id y m d (by omega) hm1 hm2 hd1 hd2]

end Fatless

namespace Fatless

theorem parseDate_MMMM_of_js {s : List Char} {dd : SimpleDate}
    (h : jsParseMonthNameDate s = some dd) :
    parseDate DateFmt.MMMMddyyyy s = some dd := by
  simp only [parseDate, h]

theorem parseDate_LLL_of_js {s : List Char} {dd : SimpleDate}
    (h : jsParseMonthNameDate s = some dd) :
    parseDate DateFmt.LLLddyyyy s = some dd := by
  simp only [parseDate, h]

/-- C6 (amended): for each of the five supported patterns, formatting a
valid, enabled date whose year has exactly four digits (`1000..9999`) and
parsing the text back yields the same date components, and the input
handler then clears the error and propagates exactly that date.  The
four-digit-year restriction is forced by the counterexample: the numeric
patterns print the year unpadded but parse it with an anchored `\d{4}`
regex, so years outside `1000..9999` do not round-trip. -/
theorem C6_round_trip (fmt : DateFmt) (y : Int) (m d : Nat) (cfg : DateCfg)
    (hy1 : 1000 ≤ y) (hy2 : y ≤ 9999) (hm1 : 1 ≤ m) (hm2 : m ≤ 12)
    (hd1 : 1 ≤ d) (hd2 : d ≤ daysInMonth y m)
    (hdis : isDateDisabled cfg { year := y, month := m, day := d } = false) :
    parseDate fmt (formatDate fmt { year := y, month := m, day := d })
      = some { year := y, month := m, day := d }
  ∧ validateAndPropagateDate cfg fmt
      (formatDate fmt { year := y, month := m, day := d })
      = ("", some { year := y, month := m, day := d }) := by
  have hparse : parseDate fmt (formatDate fmt { year := y, month := m, day := d })
      = some { year := y, month := m, day := d } := by
    cases fmt with
    | MMddyyyy =>
        simp only [formatDate]
        exact parse_format_MMddyyyy y m d hy1 hy2 hm1 hm2 hd1 hd2
    | ddMMyyyy =>
        simp only [formatDate]
        exact parse_format_ddMMyyyy y m d hy1 hy2 hm1 hm2 hd1 hd2
    | yyyyMMdd =>
        simp only [formatDate]
        exact parse_format_yyyyMMdd y m d hy1 hy2 hm1 hm2 hd1 hd2
    | MMMMddyyyy =>
        simp only [formatDate]
        have hpm : ∀ nm : String, (∀ x ∈ nm.data, isAlphaChar x = true) →
            monthFromName nm.data = some (m - 1) →
            parseDate DateFmt.MMMMddyyyy
              (nm.data ++ ' ' :: (pad2Nat d ++ ',' :: ' ' :: intToChars y))
              = some { year := y, month := m, day := d } := fun nm ha hn =>
          parseDate_MMMM_of_js
            (jsParse_of_format y m d nm hy1 hy2 hm1 hm2 hd1 hd2 ha hn)
        interval_cases m
        · exact hpm "January" (by decide) (by decide)
        · exact hpm "February" (by decide) (by decide)
        · exact hpm "March" (by decide) (by decide)
        · exact hpm "April" (by decide) (by decide)
        · exact hpm "May" (by decide) (by decide)
        · exact hpm "June" (by decide) (by decide)
        · exact hpm "July" (by decide) (by decide)
        · exact hpm "August" (by decide) (by decide)
        · exact hpm "September" (by decide) (by decide)
        · exact hpm "October" (by decide) (by decide)
        · exact hpm "November" (by decide) (by decide)
        · exact hpm "December" (by decide) (by decide)
    | LLLddyyyy =>
        simp only [formatDate]
        have hpm : ∀ nm : String, (∀ x ∈ nm.data, isAlphaChar x = true) →
            monthFromName nm.data = some (m - 1) →
            parseDate DateFmt.LLLddyyyy
              (nm.data ++ ' ' :: (pad2Nat d ++ ',' :: ' ' :: intToChars y))
              = some { year := y, month := m, day := d } := fun nm ha hn =>
          parseDate_LLL_of_js
            (jsParse_of_format y m d nm hy1 hy2 hm1 hm2 hd1 hd2 ha hn)
        interval_cases m
        · exact hpm "Jan" (by decide) (by decide)
        · exact hpm "Feb" (by decide) (by decide)
        · exact hpm "Mar" (by decide) (by decide)
        · exact hpm "Apr" (by decide) (by decide)
        · exact hpm "May" (by decide) (by decide)
        · exact hpm "Jun" (by decide) (by decide)
        · exact hpm "Jul" (by decide) (by decide)
        · exact hpm "Aug" (by decide) (by decide)
        · exact hpm "Sep" (by decide) (by decide)
        · exact hpm "Oct" (by decide) (by decide)
        · exact hpm "Nov" (by decide) (by decide)
        · exact hpm "Dec" (by decide) (by decide)
  refine ⟨hparse, ?_⟩
  rw [validateAndPropagateDate, hparse]
  simp only [hdis]
  rfl

end Fatless

namespace Fatless

/-- C6 counterexample: the round-trip fails as claimed for a valid in-range
date whose year has fewer than four digits.  With `dd/MM/yyyy` and
`minDate = maxDate =` 15 June 500, the date is enabled (inside the range,
no weekend restriction), yet `formatDate` prints `"15/06/500"` (year
unpadded) and the anchored `\d{4}` parse rejects it, so the handler
reports `null` instead of the date: `parse(format(d))` is not `d`. -/
theorem C6_counterexample :
    (isDateDisabled
        { disabled := false,
          minDate := some { year := 500, month := 6, day := 15 },
          maxDate := some { year := 500, month := 6, day := 15 },
          noWeekends := false }
        { year := 500, month := 6, day := 15 } = false)
  ∧ (parseDate DateFmt.ddMMyyyy
      (formatDate DateFmt.ddMMyyyy { year := 500, month := 6, day := 15 }) = none)
  ∧ (validateAndPropagateDate
      { disabled := false,
        minDate := some { year := 500, month := 6, day := 15 },
        maxDate := some { year := 500, month := 6, day := 15 },
        noWeekends := false }
      DateFmt.ddMMyyyy
      (formatDate DateFmt.ddMMyyyy { year := 500, month := 6, day := 15 })
      = ("", none)) := by
  refine ⟨by decide, by decide, by decide⟩

/-- C6 witness: 15 June 2023 in `dd/MM/yyyy` with no constraints
round-trips exactly. -/
theorem C6_round_trip_witness :
    parseDate DateFmt.ddMMyyyy
      (formatDate DateFmt.ddMMyyyy { year := 2023, month := 6, day := 15 })
      = some { year := 2023, month := 6, day := 15 } :=
  (C6_round_trip DateFmt.ddMMyyyy 2023 6 15
    { disabled := false, minDate := none, maxDate := none, noWeekends := false }
    (by omega) (by omega) (by omega) (by omega) (by omega) (by decide)
    (by decide)).1

theorem boundMessage_ne_empty (cfg : DateCfg) (fmt : DateFmt) :
    boundMessage cfg fmt ≠ "" := by
  intro h
  have hd := congrArg String.data h
  simp only [boundMessage, String.data_append] at hd
  exact absurd hd (by simp)

/-- C7 (amended): typed text that does not parse to a complete, well-formed
date of the expected shape clears the error and reports `null`; a complete
string is first normalized by the JS date-component overflow (so a
calendrically overflowing string such as `"31/02/2023"` resolves to a real
date rather than an error), and an error message is produced exactly when
the string parses to a date that is disabled/out of range — in which case
the bound message is set and `null` is reported. -/
theorem C7_incomplete_clears (cfg : DateCfg) (fmt : DateFmt) (s : List Char) :
    (parseDate fmt s = none → validateAndPropagateDate cfg fmt s = ("", none))
  ∧ (∀ dd, parseDate fmt s = some dd → isDateDisabled cfg dd = false →
      validateAndPropagateDate cfg fmt s = ("", some dd))
  ∧ (∀ dd, parseDate fmt s = some dd → isDateDisabled cfg dd = true →
      validateAndPropagateDate cfg fmt s = (boundMessage cfg fmt, none))
  ∧ ((validateAndPropagateDate cfg fmt s).1 ≠ "" ↔
      (∃ dd, parseDate fmt s = some dd ∧ isDateDisabled cfg dd = true)) := by
  refine ⟨?_, ?_, ?_, ?_⟩
  · intro h
    rw [validateAndPropagateDate, h]
  · intro dd h hdis
    rw [validateAndPropagateDate, h]
    simp [hdis]
  · intro dd h hdis
    rw [validateAndPropagateDate, h]
    simp [hdis]
  · constructor
    · intro h
      cases hp : parseDate fmt s with
      | none =>
          rw [validateAndPropagateDate, hp] at h
          exact absurd rfl h
      | some dd =>
          refine ⟨dd, rfl, ?_⟩
          by_cases hdis : isDateDisabled cfg dd = true
          · exact hdis
          · rw [validateAndPropagateDate, hp] at h
            simp only [Bool.not_eq_true] at hdis
            simp [hdis] at h
    · rintro ⟨dd, hp, hdis⟩
      rw [validateAndPropagateDate, hp]
      simp [hdis]
      exact boundMessage_ne_empty cfg fmt

/-- C7 counterexample: `"31/02/2023"` is a complete `dd/MM/yyyy` string that
is calendrically invalid (February has no 31st), yet the handler produces
no error: the JS `Date` constructor normalizes it to 3 March 2023, the
error is cleared and that date — not `null`, not an error — is reported. -/
theorem C7_counterexample :
    validateAndPropagateDate
      { disabled := false, minDate := none, maxDate := none, noWeekends := false }
      DateFmt.ddMMyyyy ("31/02/2023".data)
      = ("", some { year := 2023, month := 3, day := 3 }) := by
  decide

/-- C7 witness: the incomplete string `"31/1"` clears the error and reports
`null`. -/
theorem C7_incomplete_clears_witness :
    validateAndPropagateDate
      { disabled := false, minDate := none, maxDate := none, noWeekends := false }
      DateFmt.ddMMyyyy ("31/1".data) = ("", none) :=
  (C7_incomplete_clears
    { disabled := false, minDate := none, maxDate := none, noWeekends := false }
    DateFmt.ddMMyyyy ("31/1".data)).1 (by decide)

end Fatless
